import Mathlib

/-!
# Verification of the BountyAgents swarm pipeline

A shallow embedding, in Lean 4, of the orchestration layer of the
BountyAgents repository (TypeScript): the swarm orchestrator's pipeline
stages (`src/swarm/orchestrator.ts`), the debate arena
(`DebateArena` in the same file), the verification tribunal
(`src/agents/forge/verification-tribunal.ts`), the synthesis resolution
(`src/swarm/orchestrator.ts` and `src/agents/synthesis/the-pope.ts`) and
the structured-response parsing of the base agent
(`BaseAgent.analyzeStructured`).

External effects (the Anthropic oracle, `Math.random`, `Date.now`) are
modelled as explicit parameters: an oracle is a function from the
prompt-determining data to either a response or a transport error, random
choices are choice functions, and timestamps are natural-number ticks.
JavaScript floats in `[0,1]` (confidence, scores) are modelled as `ℚ`.
-/

namespace Swarm

/-- `Severity` from `src/types/index.ts`. -/
inductive Severity
  | CRITICAL | HIGH | MEDIUM | LOW | INFORMATIONAL
  deriving DecidableEq, Repr

/-- `VulnerabilityFinding.status` from `src/types/index.ts`. -/
inductive FindingStatus
  | proposed | debating | validated | rejected | exploited | submitted
  deriving DecidableEq, Repr

/-- `DebateEntry.action` from `src/types/index.ts`. -/
inductive DebateAction
  | present | attack | defend | challenge | concede | synthesize
  deriving DecidableEq, Repr

/-- `DebateEntry.role` from `src/types/index.ts`. -/
inductive DebateRole
  | proposer | redTeam | blueTeam | devilsAdvocate | pope
  deriving DecidableEq, Repr

/-- `DebateEntry` from `src/types/index.ts`.  The JS `timestamp : Date` is a
tick (`ℕ`); `targetFinding` is optional in the TS type. -/
structure DebateEntry where
  round : ℕ
  speaker : String
  role : DebateRole
  content : String
  action : DebateAction
  timestamp : ℕ
  targetFinding : Option String
  deriving DecidableEq, Repr

/-- `DebateRound.type` from `src/types/index.ts`. -/
inductive DebateRoundType
  | PRESENTATION | ATTACK | DEFENSE | DEVILS_ADVOCATE | FINAL
  deriving DecidableEq, Repr

/-- `DebateRound.outcome` from `src/types/index.ts`. -/
inductive RoundOutcome
  | CONTINUES | CONSENSUS | REJECTED
  deriving DecidableEq, Repr

/-- `DebateRound` from `src/types/index.ts`. -/
structure DebateRound where
  roundNumber : ℕ
  type : DebateRoundType
  entries : List DebateEntry
  outcome : RoundOutcome
  deriving DecidableEq, Repr

/-- `VulnerabilityFinding` from `src/types/index.ts`, restricted to the fields
the pipeline stages under verification read or write.  `confidence ∈ [0,1]` is
a JS float, modelled as `ℚ`.  `debateHistory` is optional in TS (`?:`),
modelled as `Option (List DebateEntry)` so that the `?? []` / `?.push`
dances in the source stay visible. -/
structure VulnerabilityFinding where
  id : String
  title : String
  severity : Severity
  confidence : ℚ
  discoveredBy : String
  status : FindingStatus
  debateHistory : Option (List DebateEntry) := none
  deriving DecidableEq, Repr

/-- `VerificationVote.vote` values. -/
inductive Vote
  | pass | fail
  deriving DecidableEq, Repr

/-- `VerificationVote` from `src/types/index.ts`. -/
structure VerificationVote where
  verifierId : String
  vote : Vote
  reason : String
  reproducibilityScore : ℚ
  noveltyScore : ℚ
  feasibilityScore : ℚ
  deriving DecidableEq, Repr

/-- `VerificationResult.consensus` values. -/
inductive Consensus
  | PASS | FAIL | SPLIT
  deriving DecidableEq, Repr

/-- `VerificationResult` from `src/types/index.ts`. -/
structure VerificationResult where
  findingId : String
  votes : List VerificationVote
  consensus : Consensus
  confidenceScore : ℚ
  autoSubmit : Bool
  deriving DecidableEq, Repr

/-! ## Verification (claim C1)

Two implementations compute the consensus:

* `SwarmOrchestrator.verify` (`src/swarm/orchestrator.ts`, lines 814–821)
  hard-codes the panel of 3:
  `consensus: passCount >= 2 ? 'PASS' : passCount === 0 ? 'FAIL' : 'SPLIT'`
  and `autoSubmit: passCount === 3`;
* `VerificationTribunal.verify` (`src/agents/forge/verification-tribunal.ts`,
  lines 61–83) is parameterized by a `TribunalConfig`.
-/
/-- `const passCount = votes.filter((v) => v.vote === 'pass').length`. -/
def passCount (votes : List VerificationVote) : ℕ :=
  (votes.filter (fun v => v.vote = Vote.pass)).length

/-- Consensus computed by `SwarmOrchestrator.verify` (orchestrator.ts:818). -/
def orchestratorConsensus (votes : List VerificationVote) : Consensus :=
  if passCount votes ≥ 2 then Consensus.PASS
  else if passCount votes = 0 then Consensus.FAIL
  else Consensus.SPLIT

/-- Auto-submit flag computed by `SwarmOrchestrator.verify`
(orchestrator.ts:820): `autoSubmit: passCount === 3`. -/
def orchestratorAutoSubmit (votes : List VerificationVote) : Bool :=
  passCount votes = 3

/-- `TribunalConfig` from `verification-tribunal.ts` with the constructor's
defaults (`verifierCount ?? 3`, `passThreshold ?? 2`,
`autoSubmitThreshold ?? 3`). -/
structure TribunalConfig where
  verifierCount : ℕ := 3
  passThreshold : ℕ := 2
  autoSubmitThreshold : ℕ := 3
  deriving DecidableEq, Repr

/-- Consensus computed by `VerificationTribunal.verify`
(verification-tribunal.ts:73–80):
`passCount >= autoSubmitThreshold ? 'PASS' : passCount >= passThreshold ?
'PASS' : passCount > 0 ? 'SPLIT' : 'FAIL'`. -/
def tribunalConsensus (cfg : TribunalConfig) (votes : List VerificationVote) :
    Consensus :=
  if passCount votes ≥ cfg.autoSubmitThreshold then Consensus.PASS
  else if passCount votes ≥ cfg.passThreshold then Consensus.PASS
  else if passCount votes > 0 then Consensus.SPLIT
  else Consensus.FAIL

/-- Auto-submit flag computed by `VerificationTribunal.verify`
(verification-tribunal.ts:82): `autoSubmit: passCount >= autoSubmitThreshold`. -/
def tribunalAutoSubmit (cfg : TribunalConfig) (votes : List VerificationVote) :
    Bool :=
  passCount votes ≥ cfg.autoSubmitThreshold

/-! ## Debate prioritization (claim C2)

`SwarmOrchestrator.adversarialDebate` (orchestrator.ts:336–556).  The stage
sorts `state.findings` descending by `severityWeight × confidence` with the
stable JS `Array.prototype.sort`, keeps the first 15
(`MAX_FINDINGS_TO_DEBATE`), runs the four rounds over that subset, and
finally re-assigns status `proposed` to every finding not selected. -/
/-- `const severityWeight = { CRITICAL: 4, HIGH: 3, MEDIUM: 2, LOW: 1,
INFORMATIONAL: 0 }` (orchestrator.ts:345). -/
def severityWeight : Severity → ℚ
  | Severity.CRITICAL => 4
  | Severity.HIGH => 3
  | Severity.MEDIUM => 2
  | Severity.LOW => 1
  | Severity.INFORMATIONAL => 0

/-- Priority score `(severityWeight[f.severity] || 0) * f.confidence`
(orchestrator.ts:350–351; the `|| 0` can never fire since every `Severity`
has a weight). -/
def findingScore (f : VulnerabilityFinding) : ℚ :=
  severityWeight f.severity * f.confidence

/-- The sort order of the comparator `(a, b) => scoreB - scoreA`
(descending by score).  JS `sort` is stable, matching
`List.insertionSort` with this (total, transitive) relation. -/
def scoreGE (a b : VulnerabilityFinding) : Prop :=
  findingScore b ≤ findingScore a

instance : DecidableRel scoreGE := fun a b =>
  inferInstanceAs (Decidable (findingScore b ≤ findingScore a))

instance : IsTotal VulnerabilityFinding scoreGE :=
  ⟨fun a b => (le_total (findingScore b) (findingScore a)).imp id id⟩

instance : IsTrans VulnerabilityFinding scoreGE :=
  ⟨fun _ _ _ h1 h2 => le_trans h2 h1⟩

/-- `const MAX_FINDINGS_TO_DEBATE = 15` (orchestrator.ts:344). -/
def MAX_FINDINGS_TO_DEBATE : ℕ := 15

/-- `[...this.state.findings].sort((a, b) => scoreB - scoreA).slice(0, 15)`
(orchestrator.ts:348–354). -/
def prioritizeFindings (findings : List VulnerabilityFinding) :
    List VulnerabilityFinding :=
  (findings.insertionSort scoreGE).take MAX_FINDINGS_TO_DEBATE

/-- The findings beyond the cutoff (the `slice` discards the tail of the
sorted list). -/
def unprioritizedFindings (findings : List VulnerabilityFinding) :
    List VulnerabilityFinding :=
  (findings.insertionSort scoreGE).drop MAX_FINDINGS_TO_DEBATE

/-! ## The orchestrator's debate rounds (claims C2, C5)

The environment abstracts the oracle (each agent call returns a content
string), and the registry `this.agents` (round 1 looks up
`finding.discoveredBy`; a finding whose discoverer is not registered is
silently skipped and never presented).  `new Date()` timestamps are not
modelled (all ticks are 0); no theorem below depends on timestamps.
Within a `Promise.all` batch the push order onto `session.rounds` depends
on async completion order; the model uses program order, which agrees with
the source on which entries exist and on all per-finding state. -/
structure OrchDebateEnv where
  /-- `this.agents.get(name) !== undefined`. -/
  registered : String → Bool
  /-- Content returned by `expert.presentArgument(contractContext, finding)`. -/
  presentResp : VulnerabilityFinding → String
  /-- Content returned by `attacker.attackFinding(finding, contractContext)`. -/
  attackResp : VulnerabilityFinding → String
  /-- Content returned by `defender.defendFinding(finding, lastAttack, ctx)`. -/
  defendResp : VulnerabilityFinding → String → String
  /-- Content returned by `advocate.attackFinding(finding + history, ctx)`. -/
  challengeResp : VulnerabilityFinding → List DebateEntry → String

/-- `const BATCH_SIZE = 5` (orchestrator.ts:398). -/
def BATCH_SIZE : ℕ := 5

/-- Speaker for round 2 at global position `p` in `debatingFindings`:
`redTeam[idx % redTeam.length]` where `idx` is the position inside the
current batch of 5 and the red team has 3 members (orchestrator.ts:363,436). -/
def redTeamName (p : ℕ) : String :=
  "RedTeamAttacker_" ++ toString (p % BATCH_SIZE % 3 + 1)

/-- Speaker for round 3: `blueTeam[idx % blueTeam.length]`, 2 members
(orchestrator.ts:369, 472). -/
def blueTeamName (p : ℕ) : String :=
  "BlueTeamDefender_" ++ toString (p % BATCH_SIZE % 2 + 1)

/-- Speaker for round 4: `devilsAdvocates[idx % devilsAdvocates.length]`,
2 members (orchestrator.ts:375, 508). -/
def advocateName (p : ℕ) : String :=
  "DevilsAdvocate_" ++ toString (p % BATCH_SIZE % 2 + 1)

/-- A single-entry `DebateRound` as pushed by each per-finding task
(orchestrator.ts:409–421 etc.). -/
def mkSingleRound (n : ℕ) (ty : DebateRoundType) (e : DebateEntry) :
    DebateRound :=
  ⟨n, ty, [e], RoundOutcome.CONTINUES⟩

/-- Round-1 entry (orchestrator.ts:412–420). -/
def presentEntry (env : OrchDebateEnv) (f : VulnerabilityFinding) :
    DebateEntry :=
  ⟨1, f.discoveredBy, DebateRole.proposer, env.presentResp f,
    DebateAction.present, 0, some f.id⟩

/-- Round-2 entry (orchestrator.ts:441–449; an identical literal is pushed
onto `finding.debateHistory` at 453–461). -/
def attackEntry (env : OrchDebateEnv) (p : ℕ) (f : VulnerabilityFinding) :
    DebateEntry :=
  ⟨2, redTeamName p, DebateRole.redTeam, env.attackResp f,
    DebateAction.attack, 0, some f.id⟩

/-- Round-2 processing of the finding at position `p`:
push the round, then `finding.debateHistory = finding.debateHistory ?? []`
followed by a push of a copy of the entry (orchestrator.ts:435–462). -/
def attackStep (env : OrchDebateEnv) (p : ℕ) (f : VulnerabilityFinding) :
    DebateRound × VulnerabilityFinding :=
  let e := attackEntry env p f
  (mkSingleRound 2 DebateRoundType.ATTACK e,
    { f with debateHistory := some ((f.debateHistory.getD []) ++ [e]) })

/-- `finding.debateHistory?.filter((e) => e.action === 'attack').pop()?.content
?? ''` (orchestrator.ts:473). -/
def lastAttackContent (f : VulnerabilityFinding) : String :=
  match f.debateHistory with
  | none => ""
  | some h =>
      (((h.filter (fun e => e.action = DebateAction.attack)).getLast?).map
        (fun e => e.content)).getD ""

/-- Round-3 entry (orchestrator.ts:478–486). -/
def defendEntry (env : OrchDebateEnv) (p : ℕ) (f : VulnerabilityFinding) :
    DebateEntry :=
  ⟨3, blueTeamName p, DebateRole.blueTeam,
    env.defendResp f (lastAttackContent f), DebateAction.defend, 0, some f.id⟩

/-- Round-3 processing: push the round; `finding.debateHistory?.push(copy)`
only appends when the history list exists (orchestrator.ts:471–497). -/
def defendStep (env : OrchDebateEnv) (p : ℕ) (f : VulnerabilityFinding) :
    DebateRound × VulnerabilityFinding :=
  let e := defendEntry env p f
  (mkSingleRound 3 DebateRoundType.DEFENSE e,
    { f with debateHistory := f.debateHistory.map (fun h => h ++ [e]) })

/-- Round-4 entry (orchestrator.ts:514–525). -/
def challengeEntry (env : OrchDebateEnv) (p : ℕ) (f : VulnerabilityFinding) :
    DebateEntry :=
  ⟨4, advocateName p, DebateRole.devilsAdvocate,
    env.challengeResp f (f.debateHistory.getD []), DebateAction.challenge, 0,
    some f.id⟩

/-- Round-4 processing (orchestrator.ts:507–536). -/
def challengeStep (env : OrchDebateEnv) (p : ℕ) (f : VulnerabilityFinding) :
    DebateRound × VulnerabilityFinding :=
  let e := challengeEntry env p f
  (mkSingleRound 4 DebateRoundType.DEVILS_ADVOCATE e,
    { f with debateHistory := f.debateHistory.map (fun h => h ++ [e]) })

/-- Map a position-indexed step over a list, collecting the produced rounds
and the updated findings (the `batch.map(async (finding, idx) => ...)` loops;
`p` is the global position, `p % BATCH_SIZE` the within-batch index). -/
def mapWithPos (g : ℕ → VulnerabilityFinding →
    DebateRound × VulnerabilityFinding) :
    ℕ → List VulnerabilityFinding →
      List DebateRound × List VulnerabilityFinding
  | _, [] => ([], [])
  | p, f :: fs =>
      let r := g p f
      let rest := mapWithPos g (p + 1) fs
      (r.1 :: rest.1, r.2 :: rest.2)

/-- Result of `SwarmOrchestrator.adversarialDebate`: the session's rounds,
`state.findings` after the stage, and the selected (pre-mutation) findings. -/
structure OrchDebateResult where
  rounds : List DebateRound
  findings : List VulnerabilityFinding
  prioritized : List VulnerabilityFinding

/-- The round-1 rounds pushed onto `session.rounds`: one single-entry
`PRESENTATION` round per selected finding whose discoverer is registered
(orchestrator.ts:402–427). -/
def presentRoundsOf (env : OrchDebateEnv)
    (prioritized : List VulnerabilityFinding) : List DebateRound :=
  prioritized.filterMap (fun f =>
    if env.registered f.discoveredBy then
      some (mkSingleRound 1 DebateRoundType.PRESENTATION (presentEntry env f))
    else none)

/-- The selected findings after round 1: presentation sets
`finding.status = 'debating'` when the discoverer is registered
(orchestrator.ts:423). -/
def afterPresentOf (env : OrchDebateEnv)
    (prioritized : List VulnerabilityFinding) : List VulnerabilityFinding :=
  prioritized.map (fun f =>
    if env.registered f.discoveredBy then
      { f with status := FindingStatus.debating }
    else f)

/-- `const debatingFindings = prioritizedFindings.filter((f) => f.status ===
'debating')` (orchestrator.ts:431). -/
def debatingOf (env : OrchDebateEnv)
    (prioritized : List VulnerabilityFinding) : List VulnerabilityFinding :=
  (afterPresentOf env prioritized).filter
    (fun f => f.status = FindingStatus.debating)

/-- Rounds 2–4 over `debatingFindings`, threading the per-finding history
mutations: attack, then defense, then devil's-advocate challenge
(orchestrator.ts:429–539). -/
def laterStages (env : OrchDebateEnv)
    (prioritized : List VulnerabilityFinding) :
    List DebateRound × List VulnerabilityFinding :=
  let stage2 := mapWithPos (attackStep env) 0 (debatingOf env prioritized)
  let stage3 := mapWithPos (defendStep env) 0 stage2.2
  let stage4 := mapWithPos (challengeStep env) 0 stage3.2
  (stage2.1 ++ stage3.1 ++ stage4.1, stage4.2)

/-- `SwarmOrchestrator.adversarialDebate` (orchestrator.ts:336–556).

The source mutates the selected finding objects in place; `state.findings`
aliases them.  The model reconstructs the final `state.findings` by id
lookup into the post-round-4 list, which agrees with the source whenever
finding ids are unique (the generator at orchestrator.ts:293 makes them
unique; theorems assume `Nodup` ids).  The final `map` also performs the
`if (!prioritizedFindings.includes(finding)) finding.status = 'proposed'`
re-assignment of orchestrator.ts:545–549. -/
def adversarialDebate (env : OrchDebateEnv)
    (findings : List VulnerabilityFinding) : OrchDebateResult :=
  if findings.isEmpty then ⟨[], findings, []⟩
  else
    let prioritized := prioritizeFindings findings
    let debated := laterStages env prioritized
    let final := findings.map (fun f =>
      match debated.2.find? (fun g => g.id = f.id) with
      | some g => g
      | none =>
          if f ∈ prioritized then f
          else { f with status := FindingStatus.proposed })
    ⟨presentRoundsOf env prioritized ++ debated.1, final, prioritized⟩

/-- A trivial debate environment: every agent name is registered and every
oracle call returns a fixed string.  Used to instantiate theorems. -/
def witnessEnv : OrchDebateEnv :=
  ⟨fun _ => true, fun _ => "p", fun _ => "a", fun _ _ => "d", fun _ _ => "c"⟩

/-- Sixteen findings with distinct ids and pairwise-distinct scores. -/
def witnessFindings : List VulnerabilityFinding :=
  (List.range 16).map (fun i =>
    ⟨toString i, toString i, Severity.HIGH, (i : ℚ) / 16, "E",
      FindingStatus.proposed, none⟩)

/-- All entries pushed onto `session.rounds`, in push order. -/
def allEntries (rounds : List DebateRound) : List DebateEntry :=
  (rounds.map (fun r => r.entries)).flatten

/-- Number of entries with a given action. -/
def countAction (a : DebateAction) (l : List DebateEntry) : ℕ :=
  l.countP (fun e => decide (e.action = a))

/-- Number of entries with a given action targeting a given finding id. -/
def countTargeting (a : DebateAction) (t : String) (l : List DebateEntry) : ℕ :=
  l.countP (fun e => decide (e.action = a ∧ e.targetFinding = some t))

/-- A single `proposed` finding entering the debate stage. -/
def cexFinding : VulnerabilityFinding :=
  ⟨"f1", "t1", Severity.HIGH, 1, "ExpertA", FindingStatus.proposed, none⟩

/-! ## Synthesis resolution (claims C3, C9)

`SwarmOrchestrator.synthesize` (orchestrator.ts:628–643) walks over
`state.findings` and, per finding, looks for a returned validated reference
with `v.id === finding.id || v.title === finding.title` and a rejected
reference with `r.id === finding.id`.  `ThePope.synthesize`
(the-pope.ts:124–137) resolves in the other direction: for each returned
validated reference it takes the first finding with
`f.id === v.id || f.title === v.title`.  (The Pope's update also rewrites
`description`, a field not carried by this embedding; the claims only
concern status, severity and confidence.) -/
/-- One element of `synthesis.validated_vulnerabilities`
(orchestrator.ts:600–606). -/
structure ValidatedRef where
  id : String
  title : String
  severity : Severity
  confidence : ℚ
  deriving DecidableEq, Repr

/-- One element of `synthesis.rejected_vulnerabilities`
(orchestrator.ts:607). -/
structure RejectedRef where
  id : String
  reason : String
  deriving DecidableEq, Repr

/-- The per-finding status update of `SwarmOrchestrator.synthesize`
(orchestrator.ts:628–643): `validated = validated_vulnerabilities.find(v =>
v.id === finding.id || v.title === finding.title)`; `rejected =
rejected_vulnerabilities.find(r => r.id === finding.id)`; if validated,
set status/severity/confidence from the reference, else if rejected, set
status `rejected`, else leave the finding untouched. -/
def applySynthesis (validated : List ValidatedRef)
    (rejected : List RejectedRef) (f : VulnerabilityFinding) :
    VulnerabilityFinding :=
  match validated.find? (fun v => v.id = f.id ∨ v.title = f.title) with
  | some v =>
      { f with
          status := FindingStatus.validated,
          severity := v.severity,
          confidence := v.confidence }
  | none =>
      match rejected.find? (fun r => r.id = f.id) with
      | some _ => { f with status := FindingStatus.rejected }
      | none => f

/-- The whole loop `for (const finding of this.state.findings)`
(orchestrator.ts:628). -/
def synthesizeStatuses (validated : List ValidatedRef)
    (rejected : List RejectedRef) (findings : List VulnerabilityFinding) :
    List VulnerabilityFinding :=
  findings.map (applySynthesis validated rejected)

/-- `ThePope.synthesize`: `allFindings.find((f) => f.id === v.id ||
f.title === v.title)` (the-pope.ts:127). -/
def resolveValidated (allFindings : List VulnerabilityFinding)
    (v : ValidatedRef) : Option VulnerabilityFinding :=
  allFindings.find? (fun f => f.id = v.id ∨ f.title = v.title)

/-- A finding whose title collides with a synthesis reference. -/
def cexSynthF1 : VulnerabilityFinding :=
  ⟨"A", "T1", Severity.HIGH, 1, "E", FindingStatus.proposed, none⟩

/-- The finding whose id the synthesis reference actually carries. -/
def cexSynthF2 : VulnerabilityFinding :=
  ⟨"B", "T2", Severity.HIGH, 1, "E", FindingStatus.proposed, none⟩

/-- A validated reference with the id of `cexSynthF2` and the title of
`cexSynthF1`. -/
def cexSynthRef : ValidatedRef := ⟨"B", "T1", Severity.CRITICAL, 0⟩

/-- A finding mentioned by neither synthesis set. -/
def cexSynthF3 : VulnerabilityFinding :=
  ⟨"C", "T3", Severity.LOW, 1, "E", FindingStatus.proposed, none⟩

/-! ## Debate Arena (claim C4)

`DebateArena` (the class in the same source file as the orchestrator) is a
second, concession-aware debate implementation: presentation, attack,
defense (with concession detection), devil's-advocate challenge, and an
optional final round.  Unlike `SwarmOrchestrator.adversarialDebate` it
pushes the *same* entry onto both its round and the finding's history and
tracks a per-id alive/rejected map.  Session ids, participants and
timestamps are not claim-relevant and are omitted; `Math.random` choices
and oracle contents are environment parameters. -/
/-- `DebateConfig` with the constructor defaults. -/
structure DebateConfig where
  maxRounds : ℕ := 5
  redTeamSize : ℕ := 3
  blueTeamSize : ℕ := 2
  devilsAdvocateSize : ℕ := 2
  deriving DecidableEq, Repr

/-- `const concedesPattern = /\b(concede|accept|valid point|they're right|
cannot defend|unable to defend)\b/i` — a word character for `\b` purposes. -/
def isWordChar (c : Char) : Bool :=
  c.isAlphanum || c = '_'

/-- The apostrophe character (code 39). -/
def apostropheChar : Char := Char.ofNat 39

/-- The six alternatives of the concession regex, lowercased. -/
def concessionPhrases : List (List Char) :=
  [String.toList "concede", String.toList "accept",
    String.toList "valid point",
    ['t', 'h', 'e', 'y', apostropheChar, 'r', 'e', ' ',
      'r', 'i', 'g', 'h', 't'],
    String.toList "cannot defend", String.toList "unable to defend"]

/-- Does `phrase` occur at the head of `hay` with regex word boundaries
(`prev` is the character before the match position, if any)? -/
def phraseHere (phrase hay : List Char) (prev : Option Char) : Bool :=
  phrase.isPrefixOf hay &&
    (match prev with
     | none => true
     | some c => !isWordChar c) &&
    (match hay.drop phrase.length with
     | [] => true
     | c :: _ => !isWordChar c)

/-- Scan for a word-boundary occurrence of `phrase` anywhere in the text. -/
def scanPhrase (phrase : List Char) : Option Char → List Char → Bool
  | prev, hay =>
      phraseHere phrase hay prev ||
        match hay with
        | [] => false
        | c :: rest => scanPhrase phrase (some c) rest

/-- ASCII case folding.  The concession phrases are all ASCII, so the
regex's `/i` flag only ever needs folding on ASCII letters. -/
def lowerAscii (c : Char) : Char :=
  if 65 ≤ c.toNat ∧ c.toNat ≤ 90 then Char.ofNat (c.toNat + 32) else c

/-- `concedesPattern.test(response.content)` (the DebateArena defense
round): case-insensitive word-bounded search for any concession phrase. -/
def concessionTest (content : String) : Bool :=
  concessionPhrases.any
    (fun p => scanPhrase p none (content.toList.map lowerAscii))

/-- Oracle responses and `Math.random` draws for one arena debate. -/
structure ArenaEnv where
  /-- `specialist.analyze(presentation prompt)`. -/
  presentResp : VulnerabilityFinding → String
  /-- `attacker.analyze(attack prompt)`; second argument is the
  presentation content quoted in the prompt. -/
  attackResp : VulnerabilityFinding → String → String
  /-- `Math.floor(Math.random() * redTeam.length)` per finding. -/
  attackPick : VulnerabilityFinding → ℕ
  /-- `defender.analyze(defense prompt)`; second argument is the attack
  content quoted in the prompt. -/
  defendResp : VulnerabilityFinding → String → String
  /-- `Math.random() > 0.5` (choose a blue-team defender rather than the
  original specialist). -/
  defendPickBlue : VulnerabilityFinding → Bool
  /-- `Math.floor(Math.random() * blueTeam.length)` per finding. -/
  bluePick : VulnerabilityFinding → ℕ
  /-- `advocate.analyze(challenge prompt)`; second argument is the
  finding's prior debate entries quoted in the prompt. -/
  challengeResp : VulnerabilityFinding → List DebateEntry → String
  /-- `Math.floor(Math.random() * devilsAdvocates.length)` per finding. -/
  advocatePick : VulnerabilityFinding → ℕ
  /-- `blueTeam[0].analyze(final prompt)`. -/
  finalResp : VulnerabilityFinding → List DebateEntry → String

/-- One alive-filtered pass over the session findings: entries are
collected for the alive ones (in order) and their updated versions replace
them in place, exactly like the source's `filter` + shared-object
mutation. -/
def arenaMapRound
    (step : VulnerabilityFinding → Option DebateEntry × VulnerabilityFinding)
    (alive : String → Bool) :
    List VulnerabilityFinding →
      List DebateEntry × List VulnerabilityFinding
  | [] => ([], [])
  | f :: fs =>
      let rest := arenaMapRound step alive fs
      if alive f.id then
        let r := step f
        (match r.1 with
         | some e => e :: rest.1
         | none => rest.1,
          r.2 :: rest.2)
      else (rest.1, f :: rest.2)

/-- The round-1 `present` entry. -/
def arenaPresentEntry (env : ArenaEnv) (f : VulnerabilityFinding) :
    DebateEntry :=
  ⟨1, f.discoveredBy, DebateRole.proposer, env.presentResp f,
    DebateAction.present, 0, some f.id⟩

/-- Round-1 step (`runPresentationRound`): skip findings without a
registered specialist; otherwise produce the `present` entry and push the
same entry onto the finding's history (`?? []` initialisation). -/
def arenaPresentStep (env : ArenaEnv) (specialistExists : String → Bool)
    (f : VulnerabilityFinding) :
    Option DebateEntry × VulnerabilityFinding :=
  if specialistExists f.discoveredBy then
    (some (arenaPresentEntry env f),
      { f with
          debateHistory :=
            some ((f.debateHistory.getD []) ++ [arenaPresentEntry env f]) })
  else (none, f)

/-- `finding.debateHistory?.find((e) => e.action === 'present')?.content
?? ''` (`runAttackRound`). -/
def presentationContent (f : VulnerabilityFinding) : String :=
  match f.debateHistory with
  | none => ""
  | some h =>
      (((h.find? (fun e => e.action = DebateAction.present)).map
        (fun e => e.content)).getD "")

/-- Round-2 step (`runAttackRound`): a random red-team attacker; the entry
is appended to the history only when the history list already exists
(`?.push`). -/
def arenaAttackEntry (cfg : DebateConfig) (env : ArenaEnv)
    (f : VulnerabilityFinding) : DebateEntry :=
  ⟨2, "RedTeamAttacker_" ++ toString (env.attackPick f % cfg.redTeamSize + 1),
    DebateRole.redTeam, env.attackResp f (presentationContent f),
    DebateAction.attack, 0, some f.id⟩

def arenaAttackStep (cfg : DebateConfig) (env : ArenaEnv)
    (f : VulnerabilityFinding) :
    Option DebateEntry × VulnerabilityFinding :=
  (some (arenaAttackEntry cfg env f),
    { f with
        debateHistory :=
          f.debateHistory.map (fun h => h ++ [arenaAttackEntry cfg env f]) })

/-- Round-3 step (`runDefenseRound`): find the attack on this finding
(skip if none), pick a defender (blue team, or the original specialist —
skip if the specialist is unregistered), classify the response as a
concession via the regex, and append. -/
def arenaDefenderName (cfg : DebateConfig) (env : ArenaEnv)
    (specialistExists : String → Bool) (f : VulnerabilityFinding) :
    Option String :=
  if env.defendPickBlue f then
    some ("BlueTeamDefender_" ++
      toString (env.bluePick f % cfg.blueTeamSize + 1))
  else if specialistExists f.discoveredBy then some f.discoveredBy
  else none

/-- The round-3 entry: the defense content is classified as a concession
via the regex. -/
def arenaDefendEntry (env : ArenaEnv) (sp : String) (atk : DebateEntry)
    (f : VulnerabilityFinding) : DebateEntry :=
  ⟨3, sp, DebateRole.blueTeam, env.defendResp f atk.content,
    if concessionTest (env.defendResp f atk.content) then
      DebateAction.concede
    else DebateAction.defend,
    0, some f.id⟩

def arenaDefendStep (cfg : DebateConfig) (env : ArenaEnv)
    (specialistExists : String → Bool) (attackEntries : List DebateEntry)
    (f : VulnerabilityFinding) :
    Option DebateEntry × VulnerabilityFinding :=
  match attackEntries.find? (fun e => e.targetFinding = some f.id) with
  | none => (none, f)
  | some atk =>
      match arenaDefenderName cfg env specialistExists f with
      | none => (none, f)
      | some sp =>
          (some (arenaDefendEntry env sp atk f),
            { f with
                debateHistory :=
                  f.debateHistory.map
                    (fun h => h ++ [arenaDefendEntry env sp atk f]) })

/-- Round-4 step (`runDevilsAdvocateRound`). -/
def arenaChallengeEntry (cfg : DebateConfig) (env : ArenaEnv)
    (priorEntries : List DebateEntry) (f : VulnerabilityFinding) :
    DebateEntry :=
  ⟨4, "DevilsAdvocate_" ++
      toString (env.advocatePick f % cfg.devilsAdvocateSize + 1),
    DebateRole.devilsAdvocate,
    env.challengeResp f
      (priorEntries.filter (fun e => e.targetFinding = some f.id)),
    DebateAction.challenge, 0, some f.id⟩

def arenaChallengeStep (cfg : DebateConfig) (env : ArenaEnv)
    (priorEntries : List DebateEntry) (f : VulnerabilityFinding) :
    Option DebateEntry × VulnerabilityFinding :=
  (some (arenaChallengeEntry cfg env priorEntries f),
    { f with
        debateHistory :=
          f.debateHistory.map (fun h =>
            h ++ [arenaChallengeEntry cfg env priorEntries f]) })

/-- Round-5 entry (`runFinalRound`): always `blueTeam[0]`. -/
def arenaFinalEntry (env : ArenaEnv) (priorEntries : List DebateEntry)
    (f : VulnerabilityFinding) : DebateEntry :=
  ⟨5, "BlueTeamDefender_1", DebateRole.blueTeam,
    env.finalResp f
      (priorEntries.filter (fun e => e.targetFinding = some f.id)),
    DebateAction.defend, 0, some f.id⟩

def arenaFinalStep (env : ArenaEnv) (priorEntries : List DebateEntry)
    (f : VulnerabilityFinding) :
    Option DebateEntry × VulnerabilityFinding :=
  (some (arenaFinalEntry env priorEntries f),
    { f with
        debateHistory :=
          f.debateHistory.map
            (fun h => h ++ [arenaFinalEntry env priorEntries f]) })

/-- `finding.status = 'rejected'` on the first finding with a matching id
(`processConcessions` uses `findings.find(...)`). -/
def setRejectedFirst (t : String) :
    List VulnerabilityFinding → List VulnerabilityFinding
  | [] => []
  | f :: fs =>
      if f.id = t then { f with status := FindingStatus.rejected } :: fs
      else f :: setRejectedFirst t fs

/-- `DebateArena.processConcessions`: every `concede` entry of the defense
round with a truthy `targetFinding` (JS: `undefined` and the empty string
are falsy) marks that id rejected in the status map and flips the first
matching finding to `rejected`. -/
def processConcession1 (e : DebateEntry)
    (st : List VulnerabilityFinding × (String → Bool)) :
    List VulnerabilityFinding × (String → Bool) :=
  match e.targetFinding with
  | some t =>
      if e.action = DebateAction.concede ∧ t ≠ "" then
        (setRejectedFirst t st.1, fun x => if x = t then false else st.2 x)
      else st
  | none => st

def processConcessions (entries : List DebateEntry)
    (st : List VulnerabilityFinding × (String → Bool)) :
    List VulnerabilityFinding × (String → Bool) :=
  match entries with
  | [] => st
  | e :: es => processConcessions es (processConcession1 e st)

/-- Result of `DebateArena.debate`: the session's rounds and the session
findings after `compileResults`. -/
structure ArenaResult where
  rounds : List DebateRound
  findings : List VulnerabilityFinding

/-- `findings.map((f) => ({ ...f, status: 'debating' }))`
(the `DebateSession` construction). -/
def sessionFindingsOf (findings0 : List VulnerabilityFinding) :
    List VulnerabilityFinding :=
  findings0.map (fun f => { f with status := FindingStatus.debating })

/-- The initial status map: `findings.forEach((f) =>
findingStatus.set(f.id, 'alive'))`; ids absent from the map are not alive. -/
def arenaAlive0 (findings0 : List VulnerabilityFinding) : String → Bool :=
  fun x => (findings0.map (fun f => f.id)).contains x

/-- Round 1 (presentation) over the session findings. -/
def arenaS1 (env : ArenaEnv) (spec : String → Bool)
    (findings0 : List VulnerabilityFinding) :
    List DebateEntry × List VulnerabilityFinding :=
  arenaMapRound (arenaPresentStep env spec) (fun _ => true)
    (sessionFindingsOf findings0)

/-- Round 2 (attack) over the alive findings. -/
def arenaS2 (cfg : DebateConfig) (env : ArenaEnv) (spec : String → Bool)
    (findings0 : List VulnerabilityFinding) :
    List DebateEntry × List VulnerabilityFinding :=
  arenaMapRound (arenaAttackStep cfg env) (arenaAlive0 findings0)
    (arenaS1 env spec findings0).2

/-- Round 3 (defense) over the alive findings, fed the attack entries. -/
def arenaS3 (cfg : DebateConfig) (env : ArenaEnv) (spec : String → Bool)
    (findings0 : List VulnerabilityFinding) :
    List DebateEntry × List VulnerabilityFinding :=
  arenaMapRound
    (arenaDefendStep cfg env spec (arenaS2 cfg env spec findings0).1)
    (arenaAlive0 findings0) (arenaS2 cfg env spec findings0).2

/-- State after `processConcessions` (findings, alive map). -/
def arenaConc (cfg : DebateConfig) (env : ArenaEnv) (spec : String → Bool)
    (findings0 : List VulnerabilityFinding) :
    List VulnerabilityFinding × (String → Bool) :=
  processConcessions (arenaS3 cfg env spec findings0).1
    ((arenaS3 cfg env spec findings0).2, arenaAlive0 findings0)

/-- Round 4 (devil's advocate) over the still-alive findings. -/
def arenaS4 (cfg : DebateConfig) (env : ArenaEnv) (spec : String → Bool)
    (findings0 : List VulnerabilityFinding) :
    List DebateEntry × List VulnerabilityFinding :=
  arenaMapRound
    (arenaChallengeStep cfg env
      ((arenaS1 env spec findings0).1 ++ (arenaS2 cfg env spec findings0).1 ++
        (arenaS3 cfg env spec findings0).1))
    (arenaConc cfg env spec findings0).2 (arenaConc cfg env spec findings0).1

/-- `survivors.length > 0` before the optional final round. -/
def arenaHasSurvivor (cfg : DebateConfig) (env : ArenaEnv)
    (spec : String → Bool) (findings0 : List VulnerabilityFinding) : Bool :=
  (arenaS4 cfg env spec findings0).2.any
    (fun f => (arenaConc cfg env spec findings0).2 f.id)

/-- Round 5 (final), run only when a survivor remains and the round budget
allows (`session.rounds.length < maxRounds` with four rounds played). -/
def arenaS5 (cfg : DebateConfig) (env : ArenaEnv) (spec : String → Bool)
    (findings0 : List VulnerabilityFinding) :
    List DebateEntry × List VulnerabilityFinding :=
  if arenaHasSurvivor cfg env spec findings0 ∧ 4 < cfg.maxRounds then
    arenaMapRound
      (arenaFinalStep env
        ((arenaS1 env spec findings0).1 ++ (arenaS2 cfg env spec findings0).1 ++
          (arenaS3 cfg env spec findings0).1 ++
          (arenaS4 cfg env spec findings0).1))
      (arenaConc cfg env spec findings0).2 (arenaS4 cfg env spec findings0).2
  else ([], (arenaS4 cfg env spec findings0).2)

/-- `DebateArena.debate` (the full 4–5-round protocol): copy the findings
with status `debating`, initialise the alive map, run the rounds with the
alive filter from the map, process concessions after the defense round,
optionally run the final round, then compile results: map-rejected
findings become `rejected`, all others `validated`
(`DebateArena.compileResults`). -/
def arenaDebate (cfg : DebateConfig) (env : ArenaEnv)
    (specialistExists : String → Bool)
    (findings0 : List VulnerabilityFinding) : ArenaResult :=
  let alive1 := (arenaConc cfg env specialistExists findings0).2
  let r5 : List DebateRound :=
    if arenaHasSurvivor cfg env specialistExists findings0 ∧ 4 < cfg.maxRounds
    then
      [⟨5, DebateRoundType.FINAL, (arenaS5 cfg env specialistExists findings0).1,
        RoundOutcome.CONSENSUS⟩]
    else []
  ⟨[⟨1, DebateRoundType.PRESENTATION, (arenaS1 env specialistExists findings0).1,
      RoundOutcome.CONTINUES⟩,
    ⟨2, DebateRoundType.ATTACK, (arenaS2 cfg env specialistExists findings0).1,
      RoundOutcome.CONTINUES⟩,
    ⟨3, DebateRoundType.DEFENSE, (arenaS3 cfg env specialistExists findings0).1,
      RoundOutcome.CONTINUES⟩,
    ⟨4, DebateRoundType.DEVILS_ADVOCATE,
      (arenaS4 cfg env specialistExists findings0).1,
      RoundOutcome.CONTINUES⟩] ++ r5,
    (arenaS5 cfg env specialistExists findings0).2.map (fun f =>
      if alive1 f.id then { f with status := FindingStatus.validated }
      else { f with status := FindingStatus.rejected })⟩

/-- A concrete arena environment whose defense responses concede. -/
def cexArenaEnv : ArenaEnv :=
  ⟨fun _ => "presenting", fun _ _ => "attacking", fun _ => 0,
    fun _ _ => "We concede the point", fun _ => true, fun _ => 0,
    fun _ _ => "challenging", fun _ => 0, fun _ _ => "closing"⟩

/-! ## Structured-response parsing (claim C6)

`BaseAgent.analyzeStructured` (base-agent source, lines 172–198): extract
the first fenced code block with
`/(three backticks)(?:json)?\s*([\s\S]*?)(three backticks)/`, else use the
whole response; `JSON.parse(jsonStr.trim())`; on failure, search the same
candidate text for the greedy regex regions `\{[\s\S]*\}` (first brace to
last brace) and then `\[[\s\S]*\]`, parse the region (the region's
`JSON.parse` is *not* wrapped in a try, so its failure surfaces as a raw
SyntaxError), and only when no region exists raise the custom
`Failed to parse JSON from response` error.

`JSON.parse` is the platform's JSON parser; it is modelled here by a
recursive-descent parser of the JSON grammar (numbers as `ℚ` instead of
IEEE doubles — no claim depends on float rounding). -/
/-- JSON values. -/
inductive Json
  | null
  | bool (b : Bool)
  | num (q : ℚ)
  | str (s : String)
  | arr (elems : List Json)
  | obj (fields : List (String × Json))

/-- JSON whitespace (the four characters `JSON.parse` skips). -/
def jsonWs (c : Char) : Bool :=
  c = ' ' || c = '\t' || c = '\n' || c = '\r'

/-- Drop leading JSON whitespace. -/
def skipWs (l : List Char) : List Char := l.dropWhile jsonWs

/-- Decimal digit value. -/
def digitVal (c : Char) : ℕ := c.toNat - 48

/-- Fold a digit run into a natural number. -/
def digitsToNat (ds : List Char) : ℕ :=
  ds.foldl (fun acc c => acc * 10 + digitVal c) 0

/-- Hexadecimal digit value, if any. -/
def hexVal (c : Char) : Option ℕ :=
  if c.isDigit then some (c.toNat - 48)
  else if 97 ≤ c.toNat ∧ c.toNat ≤ 102 then some (c.toNat - 87)
  else if 65 ≤ c.toNat ∧ c.toNat ≤ 70 then some (c.toNat - 55)
  else none

/-- Parse the integer part of a JSON number: `0`, or a nonzero digit
followed by digits (JSON forbids leading zeros). -/
def parseIntPart : List Char → Option (ℕ × List Char)
  | [] => none
  | c :: rest =>
      if c = '0' then some (0, rest)
      else if c.isDigit then
        let ds := rest.takeWhile Char.isDigit
        some (digitsToNat (c :: ds), rest.drop ds.length)
      else none

/-- Parse the optional fraction part, returning the scaled fraction. -/
def parseFracPart : List Char → Option (ℚ × List Char)
  | c :: rest =>
      if c = '.' then
        let ds := rest.takeWhile Char.isDigit
        if ds.isEmpty then none
        else some ((digitsToNat ds : ℚ) / ((10 : ℚ) ^ ds.length),
          rest.drop ds.length)
      else some (0, c :: rest)
  | [] => some (0, [])

/-- Parse the optional exponent part, returning the signed exponent. -/
def parseExpPart : List Char → Option (ℤ × List Char)
  | c :: rest =>
      if c = 'e' ∨ c = 'E' then
        match rest with
        | s :: rest2 =>
            if s = '+' ∨ s = '-' then
              let ds := rest2.takeWhile Char.isDigit
              if ds.isEmpty then none
              else some (if s = '-' then -(digitsToNat ds : ℤ)
                else (digitsToNat ds : ℤ), rest2.drop ds.length)
            else
              let ds := rest.takeWhile Char.isDigit
              if ds.isEmpty then none
              else some ((digitsToNat ds : ℤ), rest.drop ds.length)
        | [] => none
      else some (0, c :: rest)
  | [] => some (0, [])

/-- Parse a JSON number starting at the given characters. -/
def parseNumber (l : List Char) : Option (ℚ × List Char) :=
  let (neg, l1) :=
    match l with
    | c :: rest => if c = '-' then (true, rest) else (false, l)
    | [] => (false, l)
  match parseIntPart l1 with
  | none => none
  | some (ip, l2) =>
      match parseFracPart l2 with
      | none => none
      | some (fp, l3) =>
          match parseExpPart l3 with
          | none => none
          | some (ex, l4) =>
              let mag : ℚ := ((ip : ℚ) + fp) * (10 : ℚ) ^ ex
              some (if neg then -mag else mag, l4)

/-- Parse the body of a JSON string (after the opening quote), with the
escape sequences of the grammar; unescaped control characters are
rejected, as `JSON.parse` does. -/
def parseStringBody : ℕ → List Char → Option (List Char × List Char)
  | 0, _ => none
  | _, [] => none
  | fuel + 1, c :: rest =>
      if c = '"' then some ([], rest)
      else if c = '\\' then
        match rest with
        | [] => none
        | e :: rest2 =>
            if e = 'u' then
              match rest2 with
              | h1 :: h2 :: h3 :: h4 :: rest3 =>
                  match hexVal h1, hexVal h2, hexVal h3, hexVal h4 with
                  | some a, some b, some cc, some d =>
                      match parseStringBody fuel rest3 with
                      | some (s, r) =>
                          some (Char.ofNat (((a * 16 + b) * 16 + cc) * 16 + d)
                            :: s, r)
                      | none => none
                  | _, _, _, _ => none
              | _ => none
            else
              let decoded : Option Char :=
                if e = '"' then some '"'
                else if e = '\\' then some '\\'
                else if e = '/' then some '/'
                else if e = 'b' then some (Char.ofNat 8)
                else if e = 'f' then some (Char.ofNat 12)
                else if e = 'n' then some '\n'
                else if e = 'r' then some (Char.ofNat 13)
                else if e = 't' then some '\t'
                else none
              match decoded with
              | none => none
              | some d =>
                  match parseStringBody fuel rest2 with
                  | some (s, r) => some (d :: s, r)
                  | none => none
      else if c.toNat < 32 then none
      else
        match parseStringBody fuel rest with
        | some (s, r) => some (c :: s, r)
        | none => none

/-- The brace and bracket characters (written by code to keep every brace
out of string literals). -/
def lbrace : Char := Char.ofNat 123

def rbrace : Char := Char.ofNat 125

def lbrack : Char := '['

def rbrack : Char := ']'

/-- The state of the recursive-descent parser: parsing a value, the rest
of an array's elements, or the rest of an object's members (made a single
fuel-indexed recursion so the parser reduces in the kernel). -/
inductive PFrame
  | value
  | elemsRest (acc : List Json)
  | membersRest (acc : List (String × Json))

/-- One recursive-descent parser for all three frames. -/
def parseStep : ℕ → PFrame → List Char → Option (Json × List Char)
  | 0, _, _ => none
  | fuel + 1, PFrame.value, l =>
      match skipWs l with
      | [] => none
      | c :: rest =>
          if c = 'n' then
            if ['u', 'l', 'l'].isPrefixOf rest then
              some (Json.null, rest.drop 3)
            else none
          else if c = 't' then
            if ['r', 'u', 'e'].isPrefixOf rest then
              some (Json.bool true, rest.drop 3)
            else none
          else if c = 'f' then
            if ['a', 'l', 's', 'e'].isPrefixOf rest then
              some (Json.bool false, rest.drop 4)
            else none
          else if c = '"' then
            match parseStringBody (rest.length + 1) rest with
            | some (s, r) => some (Json.str (String.mk s), r)
            | none => none
          else if c = lbrack then
            match skipWs rest with
            | d :: rest2 =>
                if d = rbrack then some (Json.arr [], rest2)
                else parseStep fuel (PFrame.elemsRest []) rest
            | [] => none
          else if c = lbrace then
            match skipWs rest with
            | d :: rest2 =>
                if d = rbrace then some (Json.obj [], rest2)
                else parseStep fuel (PFrame.membersRest []) rest
            | [] => none
          else
            match parseNumber (c :: rest) with
            | some (q, r) => some (Json.num q, r)
            | none => none
  | fuel + 1, PFrame.elemsRest acc, l =>
      match parseStep fuel PFrame.value l with
      | none => none
      | some (v, r) =>
          match skipWs r with
          | c :: rest =>
              if c = ',' then parseStep fuel (PFrame.elemsRest (acc ++ [v])) rest
              else if c = rbrack then some (Json.arr (acc ++ [v]), rest)
              else none
          | [] => none
  | fuel + 1, PFrame.membersRest acc, l =>
      match skipWs l with
      | c :: rest =>
          if c = '"' then
            match parseStringBody (rest.length + 1) rest with
            | none => none
            | some (k, r1) =>
                match skipWs r1 with
                | d :: r2 =>
                    if d = ':' then
                      match parseStep fuel PFrame.value r2 with
                      | none => none
                      | some (v, r3) =>
                          match skipWs r3 with
                          | e :: r4 =>
                              if e = ',' then
                                parseStep fuel
                                  (PFrame.membersRest (acc ++ [(String.mk k, v)])) r4
                              else if e = rbrace then
                                some (Json.obj (acc ++ [(String.mk k, v)]), r4)
                              else none
                          | [] => none
                    else none
                | [] => none
          else none
      | [] => none

/-- Parse one JSON value. -/
def parseValue (fuel : ℕ) (l : List Char) : Option (Json × List Char) :=
  parseStep fuel PFrame.value l

/-- The model of `JSON.parse`: parse one value, allow surrounding
whitespace, reject trailing content. -/
def jsonParseChars (l : List Char) : Option Json :=
  match parseValue (2 * l.length + 2) l with
  | some (v, rest) => if skipWs rest = [] then some v else none
  | none => none

/-- The backtick character (code 96). -/
def backtickChar : Char := Char.ofNat 96

/-- A code fence delimiter: three backticks. -/
def fenceDelim : List Char := [backtickChar, backtickChar, backtickChar]

/-- `\s` of JS regexes, restricted to its ASCII members plus NBSP (the
oracle responses the claims quantify over are produced as JSON-ish text;
the exotic Unicode space classes never decide a claim). -/
def isRegexSpace (c : Char) : Bool :=
  c = ' ' || c = '\t' || c = '\n' || c = '\r' ||
    c = Char.ofNat 11 || c = Char.ofNat 12 || c = Char.ofNat 160

/-- Index of the first occurrence of `pat` in the list, from offset `i`. -/
def findSubAux (pat : List Char) : ℕ → List Char → Option ℕ
  | i, l =>
      if pat.isPrefixOf l then some i
      else
        match l with
        | [] => none
        | _ :: r => findSubAux pat (i + 1) r

/-- Try the fence regex at a position right after an opening delimiter:
optionally consume `json`, consume `\s*` greedily, then capture lazily up
to the closing delimiter. -/
def fenceMatchAt (l : List Char) : Option (List Char) :=
  let l1 := if ['j', 's', 'o', 'n'].isPrefixOf l then l.drop 4 else l
  let l2 := l1.dropWhile isRegexSpace
  match findSubAux fenceDelim 0 l2 with
  | some k => some (l2.take k)
  | none => none

/-- The capture group of the first match of
`/(fence)(?:json)?\s*([\s\S]*?)(fence)/` (leftmost match position, as the
regex engine finds it). -/
def firstFenced : List Char → Option (List Char)
  | [] => none
  | l@(_ :: rest) =>
      if fenceDelim.isPrefixOf l then
        match fenceMatchAt (l.drop 3) with
        | some cap => some cap
        | none => firstFenced rest
      else firstFenced rest

/-- Index of the last occurrence of a character. -/
def lastIdxAux (c : Char) : ℕ → Option ℕ → List Char → Option ℕ
  | _, acc, [] => acc
  | i, acc, x :: r => lastIdxAux c (i + 1) (if x = c then some i else acc) r

/-- The greedy region `open[\s\S]*close`: from the first occurrence of the
opening character to the last occurrence of the closing character after
it. -/
def greedyRegion (openC closeC : Char) (l : List Char) : Option (List Char) :=
  match findSubAux [openC] 0 l with
  | none => none
  | some i =>
      let tail := l.drop i
      match lastIdxAux closeC 0 none tail with
      | none => none
      | some j => if 1 ≤ j then some (tail.take (j + 1)) else none

/-- `String.prototype.trim` on both ends. -/
def trimChars (l : List Char) : List Char :=
  ((l.dropWhile isRegexSpace).reverse.dropWhile isRegexSpace).reverse

/-- `jsonStr` of the source: the first fenced block's capture if the fence
regex matches, else the whole response. -/
def structuredCandidate (response : String) : List Char :=
  match firstFenced response.toList with
  | some cap => cap
  | none => response.toList

/-- `BaseAgent.analyzeStructured`: parse the trimmed candidate; on failure
take the greedy brace region (object tried before array, regardless of
which comes first), whose parse failure surfaces as a raw SyntaxError;
only when no region exists raise the custom parse error. -/
def analyzeStructured (response : String) : Except String Json :=
  match jsonParseChars (trimChars (structuredCandidate response)) with
  | some d => Except.ok d
  | none =>
      match greedyRegion lbrace rbrace (structuredCandidate response) with
      | some m =>
          match jsonParseChars m with
          | some d => Except.ok d
          | none => Except.error "SyntaxError: Unexpected token in JSON"
      | none =>
          match greedyRegion lbrack rbrack (structuredCandidate response) with
          | some m =>
              match jsonParseChars m with
              | some d => Except.ok d
              | none => Except.error "SyntaxError: Unexpected token in JSON"
          | none => Except.error "Failed to parse JSON from response"

/-- Spec-side notion (not in the code): scan a balanced region with a depth
counter, starting just after an opening delimiter at depth 1. -/
def balancedAux (openC closeC : Char) : ℕ → List Char → List Char → Option (List Char)
  | _, _, [] => none
  | depth, acc, c :: r =>
      if c = openC then balancedAux openC closeC (depth + 1) (acc ++ [c]) r
      else if c = closeC then
        if depth = 1 then some (acc ++ [c])
        else balancedAux openC closeC (depth - 1) (acc ++ [c]) r
      else balancedAux openC closeC depth (acc ++ [c]) r

/-- Spec-side notion: the first balanced brace-or-bracket region of the
text, i.e. the balanced region with the earliest starting delimiter. -/
def firstBalanced : List Char → Option (List Char)
  | [] => none
  | c :: r =>
      if c = lbrace then
        match balancedAux lbrace rbrace 1 [c] r with
        | some reg => some reg
        | none => firstBalanced r
      else if c = lbrack then
        match balancedAux lbrack rbrack 1 [c] r with
        | some reg => some reg
        | none => firstBalanced r
      else firstBalanced r

/-- The structured-parse operation as the spec words it: extract the first
fenced code block if present, otherwise the first balanced region, parse
the extraction, and raise a parse error exactly when neither extraction
yields parseable data. -/
def analyzeStructuredSpec (response : String) : Except String Json :=
  match (firstFenced response.toList).bind
      (fun cap => jsonParseChars (trimChars cap)) with
  | some d => Except.ok d
  | none =>
      match (firstBalanced response.toList).bind
          (fun reg => jsonParseChars (trimChars reg)) with
      | some d => Except.ok d
      | none => Except.error "parse error"

/-- A response with no fenced block and no brace, whose first balanced
bracket region parses but whose greedy first-to-last bracket region does
not. -/
def cexStructuredResponse : String := "noise [1, 2] more [3] end"

/-! ## Expert spawning (claim C7)

`SwarmOrchestrator.spawnExperts` (orchestrator.ts lines 116–218): for each
contract, ask the spawner for a structured spawning recommendation; on any
parse failure fall back to a fixed three-expert default analysis; then
register every expert of the analysis and push it onto
`state.spawnedExperts`. The oracle call is modelled as a function from the
contract to `Except` (the thrown parse error as `Except.error`). -/
/-- The raw shape `analyzeStructured` is asked for, one expert. -/
structure RawExpert where
  name : String
  type : String
  reason : String
  system_prompt : String
  focus_areas : Option (List String)
  temperature : Option ℚ
deriving DecidableEq, Repr

/-- The raw structured spawning response. -/
structure SpawnResponse where
  contract_analysis : Option String
  experts_to_spawn : Option (List RawExpert)
  novel_patterns_detected : Option (List String)
deriving DecidableEq, Repr

/-- `ExpertDefinition` of types/index.ts (the `type` field is kept as the
unvalidated string the code casts). -/
structure ExpertDefinition where
  name : String
  type : String
  reason : String
  systemPrompt : String
  focusAreas : List String
  temperature : ℚ
deriving DecidableEq, Repr

/-- `ContractAnalysis` of types/index.ts (the fields spawnExperts sets). -/
structure ContractAnalysis where
  summary : String
  detectedPatterns : List String
  integrations : List String
  expertsToSpawn : List ExpertDefinition
  novelPatternsDetected : List String
deriving DecidableEq, Repr

/-- The catch-branch default analysis (orchestrator.ts lines 169–181). -/
def defaultExpertAnalysis : ContractAnalysis :=
  { summary := "Using default expert configuration"
    detectedPatterns := []
    integrations := []
    expertsToSpawn :=
      [{ name := "ReentrancyExpert", type := "vulnerability",
         reason := "Standard check",
         systemPrompt := "Analyze for reentrancy vulnerabilities.",
         focusAreas := ["external calls"], temperature := 0 },
       { name := "AccessControlExpert", type := "vulnerability",
         reason := "Standard check",
         systemPrompt := "Analyze for access control issues.",
         focusAreas := ["modifiers", "roles"], temperature := 0 },
       { name := "LogicErrorExpert", type := "vulnerability",
         reason := "Standard check",
         systemPrompt := "Analyze for business logic errors.",
         focusAreas := ["calculations", "state changes"], temperature := 0 }]
    novelPatternsDetected := [] }

/-- The try-branch conversion of a parsed response, and the catch-branch
fallback (orchestrator.ts lines 141–182). -/
def analysisOfResponse : Except String SpawnResponse → ContractAnalysis
  | Except.ok r =>
      { summary := r.contract_analysis.getD "Analysis complete"
        detectedPatterns := []
        integrations := []
        expertsToSpawn := (r.experts_to_spawn.getD []).map (fun e =>
          { name := e.name, type := e.type, reason := e.reason,
            systemPrompt := e.system_prompt,
            focusAreas := e.focus_areas.getD [],
            temperature := e.temperature.getD 0 })
        novelPatternsDetected := r.novel_patterns_detected.getD [] }
  | Except.error _ => defaultExpertAnalysis

/-- The agent role derived from an expert's type (orchestrator.ts
lines 196–203). -/
def expertRole (t : String) : String :=
  if t = "vulnerability" then "vulnerability-specialist"
  else if t = "protocol" then "protocol-specialist"
  else "pattern-specialist"

/-- `spawnExperts`: every expert of every contract's analysis is pushed
onto `state.spawnedExperts`, in contract order. -/
def spawnExperts (contracts : List String)
    (oracle : String → Except String SpawnResponse) : List ExpertDefinition :=
  (contracts.map (fun c => (analysisOfResponse (oracle c)).expertsToSpawn)).flatten

/-! ## Parallel analysis (claim C8)

`SwarmOrchestrator.parallelAnalysis` (orchestrator.ts lines 224–330): one
task per spawned expert; an expert missing from the agents map returns
`[]`; otherwise the expert loops over the contracts, and each
`analyzeStructured` call sits in its own try/catch — a throwing call
contributes nothing for that (expert, contract) pair and the loop goes on.
`Promise.all` then flattens the per-expert arrays in expert order. The
oracle is `analyzeResp expertName contract`; the generated id (`Date.now`
plus `Math.random` suffix) is the environment's `freshId` applied to the
pair and the raw finding's index. -/
/-- The raw shape each analysis call is asked for (the fields the
embedding's `VulnerabilityFinding` keeps). -/
structure RawFinding where
  title : String
  severity : Severity
  confidence : ℚ
deriving DecidableEq, Repr

/-- The inputs of the parallel-analysis stage. -/
structure AnalysisEnv where
  experts : List ExpertDefinition
  registered : String → Bool
  contracts : List String
  analyzeResp : String → String → Except String (List RawFinding)
  freshId : String → String → ℕ → String

/-- The finding object pushed for one raw finding
(orchestrator.ts lines 292–307). -/
def mkAnalysisFinding (env : AnalysisEnv) (name contract : String) (i : ℕ)
    (raw : RawFinding) : VulnerabilityFinding :=
  { id := env.freshId name contract i
    title := raw.title
    severity := raw.severity
    confidence := raw.confidence
    discoveredBy := name
    status := FindingStatus.proposed
    debateHistory := none }

/-- What one (expert, contract) pair contributes: the converted raw
findings on success, nothing when the call throws. -/
def contractContribution (env : AnalysisEnv) (name contract : String) :
    List VulnerabilityFinding :=
  match env.analyzeResp name contract with
  | Except.error _ => []
  | Except.ok raws =>
      raws.enum.map (fun p => mkAnalysisFinding env name contract p.1 p.2)

/-- One expert's task: `[]` if the expert is not in the agents map, else
the concatenation of its per-contract contributions. -/
def expertContribution (env : AnalysisEnv) (e : ExpertDefinition) :
    List VulnerabilityFinding :=
  if env.registered e.name then
    (env.contracts.map (fun contract =>
      contractContribution env e.name contract)).flatten
  else []

/-- `state.findings` after the stage: the per-expert arrays flattened in
expert order. -/
def parallelAnalysis (env : AnalysisEnv) : List VulnerabilityFinding :=
  (env.experts.map (expertContribution env)).flatten

/-- A five-expert batch in which `BadExpert` throws on every call and the
four siblings each return one finding. -/
def cexBadExpert : ExpertDefinition :=
  ⟨"BadExpert", "vulnerability", "r", "p", [], 0⟩

/-- The concrete environment of the five-expert batch. -/
def cexAnalysisEnv : AnalysisEnv :=
  { experts :=
      [⟨"E1", "vulnerability", "r", "p", [], 0⟩,
       ⟨"E2", "vulnerability", "r", "p", [], 0⟩,
       ⟨"E3", "protocol", "r", "p", [], 0⟩,
       ⟨"E4", "pattern", "r", "p", [], 0⟩,
       cexBadExpert]
    registered := fun _ => true
    contracts := ["c1"]
    analyzeResp := fun n _ =>
      if n = "BadExpert" then Except.error "boom"
      else Except.ok [⟨"finding of " ++ n, Severity.HIGH, 1⟩]
    freshId := fun n c _ => n ++ "-" ++ c }

/-! ## Concurrency (claim C10)

`SwarmOrchestrator` wraps the parallel-analysis tasks (orchestrator.ts
line 234), the three exploit-forge approaches per finding (lines 708–716)
and the three verification votes per exploit (line 792) in
`this.concurrencyLimit = pLimit(config.maxConcurrentAgents)` — but the
four adversarial-debate rounds run their oracle calls in plain
`Promise.all` batches of `BATCH_SIZE = 5` (lines 402–506) with no
limiter. Statically, the run is a sequence of *call groups*: the calls
started together and awaited together. A group behind the limiter has at
most `min K size` calls in flight; a plain `Promise.all` group has all
`size` calls in flight. -/
/-- A group of oracle calls started together: its size, and whether each
call is wrapped in the pLimit limiter. -/
structure CallGroup where
  size : ℕ
  limited : Bool
deriving DecidableEq, Repr

/-- Simultaneously in-flight calls of one group under limit `K`. -/
def groupPeak (K : ℕ) (g : CallGroup) : ℕ :=
  if g.limited then min K g.size else g.size

/-- The run's peak: groups are awaited before the next begins, so the
run-wide peak is the maximum group peak. -/
def peakConcurrency (K : ℕ) (gs : List CallGroup) : ℕ :=
  (gs.map (groupPeak K)).foldr max 0

/-- Batch sizes of the `for (i += BATCH_SIZE) slice(i, i + BATCH_SIZE)`
loop over `n` findings. -/
def batchSizesAux : ℕ → ℕ → List ℕ
  | 0, _ => []
  | fuel + 1, n => if n = 0 then [] else min 5 n :: batchSizesAux fuel (n - 5)

/-- Batch sizes for `n` findings. -/
def batchSizes (n : ℕ) : List ℕ := batchSizesAux n n

/-- One debate round over `n` findings: one unlimited `Promise.all` group
per batch. -/
def debateRoundGroups (n : ℕ) : List CallGroup :=
  (batchSizes n).map (fun b => ⟨b, false⟩)

/-- The call groups of one hunt: the limited analysis group, four debate
rounds of unlimited batches over the debated findings, one limited
three-approach group per forged finding, one limited three-vote group per
verified exploit. -/
def huntCallGroups (numExperts nDebate numForge numVerify : ℕ) :
    List CallGroup :=
  (⟨numExperts, true⟩ : CallGroup) ::
    (debateRoundGroups nDebate ++ debateRoundGroups nDebate ++
      debateRoundGroups nDebate ++ debateRoundGroups nDebate) ++
    ((List.range numForge).map (fun _ => (⟨3, true⟩ : CallGroup))) ++
    ((List.range numVerify).map (fun _ => (⟨3, true⟩ : CallGroup)))

/-! ## Theorems -/

/-- C1: For a panel of 3 judges with passThreshold 2 and autoAcceptThreshold 3,
both the orchestrator's inline rule and the tribunal's configurable rule give:
consensus PASS iff at least 2 `pass` votes, FAIL iff 0 `pass` votes, SPLIT
otherwise (exactly 1 `pass` vote), and auto-submit exactly on a unanimous
3/3 `pass`. -/
theorem tribunal_consensus_rule (votes : List VerificationVote)
    (hlen : votes.length = 3) :
    (orchestratorConsensus votes = Consensus.PASS ↔ 2 ≤ passCount votes) ∧
    (orchestratorConsensus votes = Consensus.FAIL ↔ passCount votes = 0) ∧
    (orchestratorConsensus votes = Consensus.SPLIT ↔ passCount votes = 1) ∧
    (orchestratorAutoSubmit votes = true ↔ passCount votes = 3) ∧
    tribunalConsensus {} votes = orchestratorConsensus votes ∧
    tribunalAutoSubmit {} votes = orchestratorAutoSubmit votes := by
  have hle : passCount votes ≤ 3 := by
    have := List.length_filter_le (fun v => decide (v.vote = Vote.pass)) votes
    simpa [passCount, hlen] using this
  unfold orchestratorConsensus orchestratorAutoSubmit tribunalConsensus
    tribunalAutoSubmit
  refine ⟨?_, ?_, ?_, ?_, ?_, ?_⟩ <;>
    first
      | (split_ifs <;> simp_all <;> try omega)
      | (simp only [decide_eq_true_eq, decide_eq_decide]; try omega)

/-- Concrete witness for C1: the vote pattern (pass, pass, fail) yields
consensus PASS without auto-submit. -/
theorem tribunal_consensus_rule_witness :
    ([⟨"Verifier_1", Vote.pass, "r", 1, 1, 1⟩,
      ⟨"Verifier_2", Vote.pass, "r", 1, 1, 1⟩,
      ⟨"Verifier_3", Vote.fail, "r", 1, 1, 1⟩] :
        List VerificationVote).length = 3 ∧
    orchestratorConsensus
      [⟨"Verifier_1", Vote.pass, "r", 1, 1, 1⟩,
       ⟨"Verifier_2", Vote.pass, "r", 1, 1, 1⟩,
       ⟨"Verifier_3", Vote.fail, "r", 1, 1, 1⟩] = Consensus.PASS := by
  refine ⟨rfl, ?_⟩
  have h := (tribunal_consensus_rule
    [⟨"Verifier_1", Vote.pass, "r", 1, 1, 1⟩,
     ⟨"Verifier_2", Vote.pass, "r", 1, 1, 1⟩,
     ⟨"Verifier_3", Vote.fail, "r", 1, 1, 1⟩] rfl).1
  exact h.mpr (by decide)

/-- Unique ids: two members of a finding list with the same id are equal. -/
theorem eq_of_nodup_ids {l : List VulnerabilityFinding}
    (h : (l.map (fun f => f.id)).Nodup) {a b : VulnerabilityFinding}
    (ha : a ∈ l) (hb : b ∈ l) (hid : a.id = b.id) : a = b :=
  List.inj_on_of_nodup_map h ha hb hid

/-- Every selected finding is one of the stage's input findings. -/
theorem mem_of_mem_prioritize {findings : List VulnerabilityFinding}
    {a : VulnerabilityFinding} (ha : a ∈ prioritizeFindings findings) :
    a ∈ findings :=
  (List.perm_insertionSort scoreGE findings).mem_iff.mp
    (List.take_subset _ _ ha)

/-- `mapWithPos` with an id-preserving step preserves the id column. -/
theorem mapWithPos_map_id
    (g : ℕ → VulnerabilityFinding → DebateRound × VulnerabilityFinding)
    (hg : ∀ p f, ((g p f).2).id = f.id) :
    ∀ (p : ℕ) (l : List VulnerabilityFinding),
      ((mapWithPos g p l).2).map (fun f => f.id) = l.map (fun f => f.id)
  | _, [] => rfl
  | p, f :: fs => by
      simp only [mapWithPos, List.map_cons, hg,
        mapWithPos_map_id g hg (p + 1) fs]

/-- Round 1 does not change the id column. -/
theorem afterPresent_ids (env : OrchDebateEnv)
    (pr : List VulnerabilityFinding) :
    (afterPresentOf env pr).map (fun f => f.id) = pr.map (fun f => f.id) := by
  unfold afterPresentOf
  induction pr with
  | nil => rfl
  | cons f fs ih => simp only [List.map_cons, ih, apply_ite (fun g =>
      VulnerabilityFinding.id g)]; split <;> simp

/-- Rounds 2–4 do not change the id column either. -/
theorem laterStages_ids (env : OrchDebateEnv)
    (pr : List VulnerabilityFinding) :
    ((laterStages env pr).2).map (fun f => f.id) =
      (debatingOf env pr).map (fun f => f.id) := by
  unfold laterStages
  rw [mapWithPos_map_id, mapWithPos_map_id, mapWithPos_map_id] <;>
    intro p f <;> rfl

/-- The id of any post-debate (round-4) finding is the id of a selected
finding. -/
theorem laterStages_id_mem {env : OrchDebateEnv}
    {pr : List VulnerabilityFinding} {g : VulnerabilityFinding}
    (hg : g ∈ (laterStages env pr).2) :
    g.id ∈ pr.map (fun f => f.id) := by
  have h1 : g.id ∈ ((laterStages env pr).2).map (fun f => f.id) :=
    List.mem_map_of_mem _ hg
  rw [laterStages_ids] at h1
  have h2 : List.Sublist ((debatingOf env pr).map (fun f => f.id))
      ((afterPresentOf env pr).map (fun f => f.id)) :=
    (List.filter_sublist _).map _
  rw [afterPresent_ids] at h2
  exact h2.subset h1

/-- The `prioritized` component of the stage result, for a nonempty input. -/
theorem adversarialDebate_prioritized (env : OrchDebateEnv)
    {findings : List VulnerabilityFinding} (hne : findings ≠ []) :
    (adversarialDebate env findings).prioritized =
      prioritizeFindings findings := by
  unfold adversarialDebate
  rw [if_neg (by simpa [List.isEmpty_iff] using hne)]

/-- The `findings` component of the stage result, for a nonempty input. -/
theorem adversarialDebate_findings (env : OrchDebateEnv)
    {findings : List VulnerabilityFinding} (hne : findings ≠ []) :
    (adversarialDebate env findings).findings = findings.map (fun f =>
      match (laterStages env (prioritizeFindings findings)).2.find?
          (fun g => g.id = f.id) with
      | some g => g
      | none =>
          if f ∈ prioritizeFindings findings then f
          else { f with status := FindingStatus.proposed }) := by
  unfold adversarialDebate
  rw [if_neg (by simpa [List.isEmpty_iff] using hne)]

/-- C2: The debate stage selects exactly the (at most) 15 findings with the
highest `severity_weight × confidence` score: the selection has length
`min 15 n`, selection and remainder together permute the input, every
selected finding scores at least (strictly above, when scores are distinct)
every unselected one, and — when ids are unique — every unselected finding
sits in the post-stage `state.findings` with status `proposed`. -/
theorem debate_cutoff (env : OrchDebateEnv)
    (findings : List VulnerabilityFinding) (hne : findings ≠ []) :
    (adversarialDebate env findings).prioritized.length =
        min MAX_FINDINGS_TO_DEBATE findings.length ∧
    ((adversarialDebate env findings).prioritized ++
        unprioritizedFindings findings).Perm findings ∧
    (∀ a ∈ (adversarialDebate env findings).prioritized,
      ∀ b ∈ unprioritizedFindings findings,
        findingScore b ≤ findingScore a) ∧
    (findings.Pairwise (fun a b => findingScore a ≠ findingScore b) →
      ∀ a ∈ (adversarialDebate env findings).prioritized,
        ∀ b ∈ unprioritizedFindings findings,
          findingScore b < findingScore a) ∧
    ((findings.map (fun f => f.id)).Nodup →
      ∀ f ∈ findings, f ∉ (adversarialDebate env findings).prioritized →
        { f with status := FindingStatus.proposed } ∈
          (adversarialDebate env findings).findings) := by
  rw [adversarialDebate_prioritized env hne, adversarialDebate_findings env hne]
  have hsplit : prioritizeFindings findings ++ unprioritizedFindings findings =
      findings.insertionSort scoreGE :=
    List.take_append_drop _ _
  have hperm : (findings.insertionSort scoreGE).Perm findings :=
    List.perm_insertionSort scoreGE findings
  have hsorted : List.Sorted scoreGE (findings.insertionSort scoreGE) :=
    List.sorted_insertionSort scoreGE findings
  have hpair : ∀ a ∈ prioritizeFindings findings,
      ∀ b ∈ unprioritizedFindings findings, scoreGE a b := by
    have := List.pairwise_append.mp (by rw [hsplit]; exact hsorted)
    exact this.2.2
  refine ⟨?_, ?_, hpair, ?_, ?_⟩
  · have : (findings.insertionSort scoreGE).length = findings.length :=
      hperm.length_eq
    simp [prioritizeFindings, List.length_take, this, Nat.min_comm]
  · rw [hsplit]; exact hperm
  · intro hdist a ha b hb
    have hne' : findingScore a ≠ findingScore b := by
      have hsym : Symmetric
          (fun x y : VulnerabilityFinding => findingScore x ≠ findingScore y) :=
        fun _ _ h => h.symm
      have : (findings.insertionSort scoreGE).Pairwise
          (fun x y => findingScore x ≠ findingScore y) :=
        (hperm.pairwise_iff (fun h => hsym h)).mpr hdist
      have := (List.pairwise_append.mp (by rw [hsplit]; exact this)).2.2
      exact this a ha b hb
    exact lt_of_le_of_ne (hpair a ha b hb) (fun h => hne' h.symm)
  · intro hnodup f hf hnotsel
    have hfind : (laterStages env (prioritizeFindings findings)).2.find?
        (fun g => g.id = f.id) = none := by
      rw [List.find?_eq_none]
      intro g hg hgid
      have hgid' : g.id = f.id := by simpa using hgid
      have : f.id ∈ (prioritizeFindings findings).map (fun x => x.id) := by
        rw [← hgid']; exact laterStages_id_mem hg
      rcases List.mem_map.mp this with ⟨h, hh, hhid⟩
      exact hnotsel (eq_of_nodup_ids hnodup (mem_of_mem_prioritize hh) hf
        hhid ▸ hh)
    refine List.mem_map.mpr ⟨f, hf, ?_⟩
    simp only [hfind]
    simp [hnotsel]

/-- Concrete witness for C2: sixteen findings, of which exactly 15 are
selected for debate. -/
theorem debate_cutoff_witness :
    witnessFindings ≠ [] ∧
    (adversarialDebate witnessEnv witnessFindings).prioritized.length =
      min MAX_FINDINGS_TO_DEBATE witnessFindings.length := by
  refine ⟨by decide, (debate_cutoff witnessEnv witnessFindings (by decide)).1⟩

/-- The `rounds` component of the stage result, for a nonempty input. -/
theorem adversarialDebate_rounds (env : OrchDebateEnv)
    {findings : List VulnerabilityFinding} (hne : findings ≠ []) :
    (adversarialDebate env findings).rounds =
      presentRoundsOf env (prioritizeFindings findings) ++
        (laterStages env (prioritizeFindings findings)).1 := by
  unfold adversarialDebate
  rw [if_neg (by simpa [List.isEmpty_iff] using hne)]

/-- Composing two position-indexed passes at the same start position. -/
theorem mapWithPos_snd_comp
    (g h : ℕ → VulnerabilityFinding → DebateRound × VulnerabilityFinding) :
    ∀ (p : ℕ) (l : List VulnerabilityFinding),
      (mapWithPos g p (mapWithPos h p l).2).2 =
        (mapWithPos (fun q f => g q ((h q f).2)) p l).2
  | _, [] => rfl
  | p, f :: fs => by
      simp only [mapWithPos, mapWithPos_snd_comp g h (p + 1) fs]

/-- Each input of a position-indexed pass yields its image (at some
position) in the output. -/
theorem mem_mapWithPos_snd
    (g : ℕ → VulnerabilityFinding → DebateRound × VulnerabilityFinding)
    {x : VulnerabilityFinding} :
    ∀ (p : ℕ) {l : List VulnerabilityFinding}, x ∈ l →
      ∃ q, ((g q x).2) ∈ (mapWithPos g p l).2 := by
  intro p l
  induction l generalizing p with
  | nil => intro h; cases h
  | cons a as ih =>
      intro hx
      rcases List.mem_cons.mp hx with rfl | hmem
      · exact ⟨p, List.mem_cons_self _ _⟩
      · rcases ih (p + 1) hmem with ⟨q, hq⟩
        exact ⟨q, List.mem_cons_of_mem _ hq⟩

/-- `find?` by id on a list with unique ids returns the member itself. -/
theorem find?_eq_of_nodup_ids {l : List VulnerabilityFinding}
    (h : (l.map (fun f => f.id)).Nodup) {x : VulnerabilityFinding}
    (hx : x ∈ l) : l.find? (fun g => g.id = x.id) = some x := by
  induction l with
  | nil => cases hx
  | cons a as ih =>
      rcases List.mem_cons.mp hx with rfl | hmem
      · simp [List.find?]
      · have hnid : a.id ≠ x.id := by
          intro hid
          have : x.id ∈ as.map (fun f => f.id) := List.mem_map_of_mem _ hmem
          rw [List.map_cons, List.nodup_cons] at h
          exact h.1 (hid ▸ this)
        have := ih (by rw [List.map_cons, List.nodup_cons] at h; exact h.2) hmem
        simp [List.find?, hnid, this]

/-- The post-round-4 list has unique ids whenever the input findings do. -/
theorem laterStages_nodup_ids (env : OrchDebateEnv)
    {findings : List VulnerabilityFinding}
    (hnodup : (findings.map (fun f => f.id)).Nodup) :
    (((laterStages env (prioritizeFindings findings)).2).map
      (fun f => f.id)).Nodup := by
  rw [laterStages_ids]
  have h2 : List.Sublist
      ((debatingOf env (prioritizeFindings findings)).map (fun f => f.id))
      ((afterPresentOf env (prioritizeFindings findings)).map
        (fun f => f.id)) :=
    (List.filter_sublist _).map _
  rw [afterPresent_ids] at h2
  have h3 : List.Sublist
      ((prioritizeFindings findings).map (fun f => f.id))
      ((findings.insertionSort scoreGE).map (fun f => f.id)) :=
    (List.take_sublist _ _).map _
  have h4 : ((findings.insertionSort scoreGE).map (fun f => f.id)).Nodup :=
    (((List.perm_insertionSort scoreGE findings).map _).nodup_iff).mpr hnodup
  exact h2.nodup (h3.nodup h4)

/-- Counterexample for C5: in `SwarmOrchestrator.adversarialDebate`, the
round-1 `present` entry is pushed onto `session.rounds` only — never onto
the finding's `debateHistory`.  With one finding and a registered expert,
the rounds contain exactly one `present` entry targeting it, yet its
post-debate history contains zero `present` entries, so that round entry is
absent from the history. -/
theorem debate_history_consistency_cex :
    ∃ f' ∈ (adversarialDebate witnessEnv [cexFinding]).findings,
      f'.id = "f1" ∧
      countAction DebateAction.present (f'.debateHistory.getD []) = 0 ∧
      countTargeting DebateAction.present "f1"
        (allEntries (adversarialDebate witnessEnv [cexFinding]).rounds) = 1 ∧
      ∃ e ∈ allEntries (adversarialDebate witnessEnv [cexFinding]).rounds,
        e.action = DebateAction.present ∧ e.targetFinding = some "f1" ∧
        e ∉ f'.debateHistory.getD [] := by
  decide

/-- The entries of the round-1 rounds, flattened: one `present` entry per
selected finding with a registered discoverer. -/
theorem allEntries_presentRounds (env : OrchDebateEnv)
    (pr : List VulnerabilityFinding) :
    allEntries (presentRoundsOf env pr) =
      pr.filterMap (fun f =>
        if env.registered f.discoveredBy then some (presentEntry env f)
        else none) := by
  unfold allEntries presentRoundsOf mkSingleRound
  induction pr with
  | nil => rfl
  | cons f fs ih =>
      by_cases hr : env.registered f.discoveredBy = true
      · simp [List.filterMap_cons, hr, ih]
      · simp [List.filterMap_cons, eq_false_of_ne_true hr, ih]

/-- The selection keeps ids unique. -/
theorem prioritize_nodup_ids {findings : List VulnerabilityFinding}
    (hnodup : (findings.map (fun f => f.id)).Nodup) :
    ((prioritizeFindings findings).map (fun f => f.id)).Nodup := by
  have h3 : List.Sublist ((prioritizeFindings findings).map (fun f => f.id))
      ((findings.insertionSort scoreGE).map (fun f => f.id)) :=
    (List.take_sublist _ _).map _
  have h4 : ((findings.insertionSort scoreGE).map (fun f => f.id)).Nodup :=
    (((List.perm_insertionSort scoreGE findings).map _).nodup_iff).mpr hnodup
  exact h3.nodup h4

/-- Exactly one round-1 `present` entry targets a selected finding with a
registered discoverer (assuming unique ids among the selected findings). -/
theorem countTargeting_presentRounds (env : OrchDebateEnv)
    {pr : List VulnerabilityFinding}
    (hnodup : (pr.map (fun f => f.id)).Nodup)
    {f : VulnerabilityFinding} (hf : f ∈ pr)
    (hreg : env.registered f.discoveredBy = true) :
    countTargeting DebateAction.present f.id
      (allEntries (presentRoundsOf env pr)) = 1 := by
  rw [allEntries_presentRounds]
  induction pr with
  | nil => cases hf
  | cons a as ih =>
      rw [List.map_cons, List.nodup_cons] at hnodup
      rcases List.mem_cons.mp hf with rfl | hmem
      · have hzero : countTargeting DebateAction.present f.id
            (as.filterMap (fun g =>
              if env.registered g.discoveredBy then some (presentEntry env g)
              else none)) = 0 := by
          unfold countTargeting
          rw [List.countP_eq_zero]
          intro e he
          rcases List.mem_filterMap.mp he with ⟨g, hg, hsel⟩
          have hpe : presentEntry env g = e := by
            by_cases hr : env.registered g.discoveredBy = true
            · rw [hr] at hsel; simpa using hsel
            · rw [eq_false_of_ne_true hr] at hsel; simp at hsel
          have hgid : g.id ≠ f.id := by
            intro hid
            exact hnodup.1 (hid ▸ List.mem_map_of_mem _ hg)
          rw [← hpe]
          simp [presentEntry, hgid]
        have hcons : (f :: as).filterMap (fun g =>
            if env.registered g.discoveredBy then some (presentEntry env g)
            else none) = presentEntry env f :: as.filterMap (fun g =>
            if env.registered g.discoveredBy then some (presentEntry env g)
            else none) := by
          simp [List.filterMap_cons, hreg]
        unfold countTargeting at hzero ⊢
        rw [hcons, List.countP_cons, hzero]
        simp [presentEntry]
      · have hne : a.id ≠ f.id := by
          intro hid
          exact hnodup.1 (hid ▸ List.mem_map_of_mem _ hmem)
        have hrest := ih hnodup.2 hmem
        unfold countTargeting at hrest ⊢
        by_cases hr : env.registered a.discoveredBy = true
        · have hcons : (a :: as).filterMap (fun g =>
              if env.registered g.discoveredBy then some (presentEntry env g)
              else none) = presentEntry env a :: as.filterMap (fun g =>
              if env.registered g.discoveredBy then some (presentEntry env g)
              else none) := by
            simp [List.filterMap_cons, hr]
          rw [hcons, List.countP_cons, hrest]
          simp [presentEntry, hne]
        · have hcons : (a :: as).filterMap (fun g =>
              if env.registered g.discoveredBy then some (presentEntry env g)
              else none) = as.filterMap (fun g =>
              if env.registered g.discoveredBy then some (presentEntry env g)
              else none) := by
            simp [List.filterMap_cons, eq_false_of_ne_true hr]
          rw [hcons, hrest]

/-- Every entry in the rounds produced by a position-indexed pass satisfies
any per-step entry property. -/
theorem mapWithPos_rounds_entries
    (g : ℕ → VulnerabilityFinding → DebateRound × VulnerabilityFinding)
    (P : DebateEntry → Prop)
    (hg : ∀ p f, ∀ e ∈ ((g p f).1).entries, P e) :
    ∀ (p : ℕ) (l : List VulnerabilityFinding),
      ∀ r ∈ (mapWithPos g p l).1, ∀ e ∈ r.entries, P e
  | _, [], r, hr => by cases hr
  | p, f :: fs, r, hr => by
      rcases List.mem_cons.mp hr with rfl | hmem
      · exact hg p f
      · exact mapWithPos_rounds_entries g P hg (p + 1) fs r hmem

/-- Rounds 2–4 contain no `present` entries at all. -/
theorem laterStages_no_present (env : OrchDebateEnv)
    (pr : List VulnerabilityFinding) (t : String) :
    countTargeting DebateAction.present t
      (allEntries (laterStages env pr).1) = 0 := by
  unfold countTargeting
  rw [List.countP_eq_zero]
  intro e he
  unfold allEntries at he
  rcases List.mem_flatten.mp he with ⟨es, hes, hee⟩
  rcases List.mem_map.mp hes with ⟨r, hr, rfl⟩
  have hact : e.action ≠ DebateAction.present := by
    unfold laterStages at hr
    rcases List.mem_append.mp hr with hr' | hr'
    · rcases List.mem_append.mp hr' with hr2 | hr3
      · have := mapWithPos_rounds_entries (attackStep env)
          (fun e => e.action = DebateAction.attack)
          (by intro p f e he
              have he' : e = attackEntry env p f := by
                simpa [attackStep, mkSingleRound] using he
              rw [he']; rfl) 0 _ r hr2 e hee
        simp [this]
      · have := mapWithPos_rounds_entries (defendStep env)
          (fun e => e.action = DebateAction.defend)
          (by intro p f e he
              have he' : e = defendEntry env p f := by
                simpa [defendStep, mkSingleRound] using he
              rw [he']; rfl) 0 _ r hr3 e hee
        simp [this]
    · have := mapWithPos_rounds_entries (challengeStep env)
        (fun e => e.action = DebateAction.challenge)
        (by intro p f e he
            have he' : e = challengeEntry env p f := by
              simpa [challengeStep, mkSingleRound] using he
            rw [he']; rfl) 0 _ r hr' e hee
      simp [this]
  simp [hact]

/-- `allEntries` distributes over appended round lists. -/
theorem allEntries_append (a b : List DebateRound) :
    allEntries (a ++ b) = allEntries a ++ allEntries b := by
  simp [allEntries]

/-- The `.2` component of `laterStages`, unfolded. -/
theorem laterStages_snd (env : OrchDebateEnv)
    (pr : List VulnerabilityFinding) :
    (laterStages env pr).2 =
      (mapWithPos (challengeStep env) 0
        ((mapWithPos (defendStep env) 0
          ((mapWithPos (attackStep env) 0 (debatingOf env pr)).2)).2)).2 := rfl

/-- C5 (amended): in `SwarmOrchestrator.adversarialDebate`, only the
attack, defense and challenge entries are mirrored into the target
finding's `debateHistory` (as separately constructed copies); the round-1
`present` entry is pushed onto the session's rounds only.  Hence a selected
finding with a registered discoverer, unique ids and an empty initial
history ends the stage with a history of exactly one `attack`, one
`defend` and one `challenge` entry and zero `present` entries, while the
session's rounds contain exactly one `present` entry targeting it. -/
theorem debate_history_amended (env : OrchDebateEnv)
    (findings : List VulnerabilityFinding)
    (hnodup : (findings.map (fun f => f.id)).Nodup)
    (f : VulnerabilityFinding) (hf : f ∈ prioritizeFindings findings)
    (hreg : env.registered f.discoveredBy = true)
    (hhist : f.debateHistory = none) :
    ∃ f' ∈ (adversarialDebate env findings).findings,
      f'.id = f.id ∧
      countAction DebateAction.present (f'.debateHistory.getD []) = 0 ∧
      countAction DebateAction.attack (f'.debateHistory.getD []) = 1 ∧
      countAction DebateAction.defend (f'.debateHistory.getD []) = 1 ∧
      countAction DebateAction.challenge (f'.debateHistory.getD []) = 1 ∧
      countTargeting DebateAction.present f.id
        (allEntries (adversarialDebate env findings).rounds) = 1 := by
  have hne : findings ≠ [] := by
    intro h
    rw [h] at hf
    simp [prioritizeFindings, List.insertionSort] at hf
  have hdeb : ({ f with status := FindingStatus.debating }) ∈
      debatingOf env (prioritizeFindings findings) := by
    unfold debatingOf afterPresentOf
    refine List.mem_filter.mpr ⟨?_, by simp⟩
    refine List.mem_map.mpr ⟨f, hf, ?_⟩
    rw [hreg]
    simp
  obtain ⟨q1, h1⟩ := mem_mapWithPos_snd (attackStep env) 0 hdeb
  obtain ⟨q2, h2⟩ := mem_mapWithPos_snd (defendStep env) 0 h1
  obtain ⟨q3, h3⟩ := mem_mapWithPos_snd (challengeStep env) 0 h2
  rw [← laterStages_snd env (prioritizeFindings findings)] at h3
  have hnodup4 := laterStages_nodup_ids env hnodup
  have hfind : (laterStages env (prioritizeFindings findings)).2.find?
      (fun g => g.id = f.id) = some
        ((challengeStep env q3 ((defendStep env q2 ((attackStep env q1
          { f with status := FindingStatus.debating }).2)).2)).2) :=
    find?_eq_of_nodup_ids hnodup4 h3
  refine ⟨(challengeStep env q3 ((defendStep env q2 ((attackStep env q1
    { f with status := FindingStatus.debating }).2)).2)).2, ?_, rfl, ?_, ?_,
    ?_, ?_, ?_⟩
  · rw [adversarialDebate_findings env hne]
    refine List.mem_map.mpr ⟨f, mem_of_mem_prioritize hf, ?_⟩
    simp only [hfind]
  · simp [attackStep, defendStep, challengeStep, hhist, countAction,
      attackEntry, defendEntry, challengeEntry, List.countP_cons]
  · simp [attackStep, defendStep, challengeStep, hhist, countAction,
      attackEntry, defendEntry, challengeEntry, List.countP_cons]
  · simp [attackStep, defendStep, challengeStep, hhist, countAction,
      attackEntry, defendEntry, challengeEntry, List.countP_cons]
  · simp [attackStep, defendStep, challengeStep, hhist, countAction,
      attackEntry, defendEntry, challengeEntry, List.countP_cons]
  · rw [adversarialDebate_rounds env hne, allEntries_append]
    unfold countTargeting
    rw [List.countP_append]
    have h5 := countTargeting_presentRounds env (prioritize_nodup_ids hnodup)
      hf hreg
    have h6 := laterStages_no_present env (prioritizeFindings findings) f.id
    unfold countTargeting at h5 h6
    rw [h5, h6]

/-- Concrete witness for the amended C5 theorem at a one-finding input. -/
theorem debate_history_amended_witness :
    (([cexFinding].map (fun f => f.id)).Nodup ∧
      cexFinding ∈ prioritizeFindings [cexFinding] ∧
      witnessEnv.registered cexFinding.discoveredBy = true ∧
      cexFinding.debateHistory = none) ∧
    ∃ f' ∈ (adversarialDebate witnessEnv [cexFinding]).findings,
      f'.id = cexFinding.id ∧
      countAction DebateAction.present (f'.debateHistory.getD []) = 0 ∧
      countAction DebateAction.attack (f'.debateHistory.getD []) = 1 ∧
      countAction DebateAction.defend (f'.debateHistory.getD []) = 1 ∧
      countAction DebateAction.challenge (f'.debateHistory.getD []) = 1 ∧
      countTargeting DebateAction.present cexFinding.id
        (allEntries (adversarialDebate witnessEnv [cexFinding]).rounds) = 1 :=
  ⟨⟨by decide, by decide, by decide, by decide⟩,
    debate_history_amended witnessEnv [cexFinding] (by decide) cexFinding
      (by decide) (by decide) (by decide)⟩

/-- Counterexample for C3: resolution is a single combined
`id-or-title` match, not id-first.  The reference `cexSynthRef` has an
exact id match (`cexSynthF2`), yet the orchestrator's loop also resolves
it — via title — to the different finding `cexSynthF1`, marking that
finding validated and overwriting its severity and confidence; and The
Pope's resolver returns `cexSynthF1` (the title match), not the id match. -/
theorem synthesis_id_first_cex :
    (∃ g ∈ [cexSynthF1, cexSynthF2], g.id = cexSynthRef.id) ∧
    cexSynthF1.id ≠ cexSynthRef.id ∧
    (applySynthesis [cexSynthRef] [] cexSynthF1).status =
      FindingStatus.validated ∧
    (applySynthesis [cexSynthRef] [] cexSynthF1).severity =
      Severity.CRITICAL ∧
    resolveValidated [cexSynthF1, cexSynthF2] cexSynthRef =
      some cexSynthF1 := by
  decide

/-- C3 (amended): the synthesis stage resolves with the single disjunctive
test `v.id = f.id ∨ v.title = f.title`: a finding's post-synthesis status
is `validated` exactly when some returned validated reference matches its
id or its title (title matches apply even when the reference's id matches
a different finding), or it already was `validated` and no returned
reference touches it. -/
theorem applySynthesis_of_validated {validated : List ValidatedRef}
    {rejected : List RejectedRef} {f : VulnerabilityFinding}
    {v : ValidatedRef}
    (h : validated.find? (fun v => v.id = f.id ∨ v.title = f.title) = some v) :
    applySynthesis validated rejected f =
      { f with
          status := FindingStatus.validated,
          severity := v.severity,
          confidence := v.confidence } := by
  unfold applySynthesis
  rw [h]

theorem applySynthesis_of_rejected {validated : List ValidatedRef}
    {rejected : List RejectedRef} {f : VulnerabilityFinding}
    {r : RejectedRef}
    (hv : validated.find? (fun v => v.id = f.id ∨ v.title = f.title) = none)
    (hr : rejected.find? (fun r => r.id = f.id) = some r) :
    applySynthesis validated rejected f =
      { f with status := FindingStatus.rejected } := by
  unfold applySynthesis
  rw [hv, hr]

theorem applySynthesis_of_unmentioned {validated : List ValidatedRef}
    {rejected : List RejectedRef} {f : VulnerabilityFinding}
    (hv : validated.find? (fun v => v.id = f.id ∨ v.title = f.title) = none)
    (hr : rejected.find? (fun r => r.id = f.id) = none) :
    applySynthesis validated rejected f = f := by
  unfold applySynthesis
  rw [hv, hr]

theorem synthesis_resolution_amended (validated : List ValidatedRef)
    (rejected : List RejectedRef) (f : VulnerabilityFinding) :
    (applySynthesis validated rejected f).status = FindingStatus.validated ↔
      (∃ v ∈ validated, v.id = f.id ∨ v.title = f.title) ∨
        (f.status = FindingStatus.validated ∧
          ¬ (∃ r ∈ rejected, r.id = f.id)) := by
  rcases hv : validated.find? (fun v => v.id = f.id ∨ v.title = f.title) with
    _ | v
  · rcases hr : rejected.find? (fun r => r.id = f.id) with _ | r
    · rw [applySynthesis_of_unmentioned hv hr]
      rw [List.find?_eq_none] at hv hr
      constructor
      · intro h
        refine Or.inr ⟨h, ?_⟩
        rintro ⟨r, hrm, hrid⟩
        have := hr r hrm
        simp [hrid] at this
      · intro h
        rcases h with ⟨v, hvm, hvor⟩ | ⟨hs, _⟩
        · have := hv v hvm
          simp [hvor] at this
        · exact hs

    · rw [applySynthesis_of_rejected hv hr]
      rw [List.find?_eq_none] at hv
      have hrmem := List.find?_some hr
      have hrin := List.mem_of_find?_eq_some hr
      constructor
      · intro h; cases h
      · intro h
        rcases h with ⟨v, hvm, hvor⟩ | ⟨_, hno⟩
        · have := hv v hvm
          simp [hvor] at this
        · exact absurd ⟨r, hrin, by simpa using hrmem⟩ hno
  · rw [applySynthesis_of_validated hv]
    have hvmem := List.find?_some hv
    have hvin := List.mem_of_find?_eq_some hv
    constructor
    · intro _
      exact Or.inl ⟨v, hvin, by simpa using hvmem⟩
    · intro _; rfl
/-- Concrete witness for the amended C3 characterization. -/
theorem synthesis_resolution_amended_witness :
    (applySynthesis [cexSynthRef] [] cexSynthF1).status =
        FindingStatus.validated ↔
      (∃ v ∈ [cexSynthRef], v.id = cexSynthF1.id ∨
          v.title = cexSynthF1.title) ∨
        (cexSynthF1.status = FindingStatus.validated ∧
          ¬ (∃ r ∈ ([] : List RejectedRef), r.id = cexSynthF1.id)) :=
  synthesis_resolution_amended [cexSynthRef] [] cexSynthF1

/-- C9: a finding matched by no returned validated reference (by id or
title) and no returned rejected reference (by id) is left entirely
unchanged by the synthesis stage — in particular its status, severity and
confidence keep their pre-synthesis values. -/
theorem synthesis_frame (validated : List ValidatedRef)
    (rejected : List RejectedRef) (findings : List VulnerabilityFinding)
    (f : VulnerabilityFinding) (hf : f ∈ findings)
    (hv : ∀ v ∈ validated, v.id ≠ f.id ∧ v.title ≠ f.title)
    (hr : ∀ r ∈ rejected, r.id ≠ f.id) :
    applySynthesis validated rejected f = f ∧
    f ∈ synthesizeStatuses validated rejected findings := by
  have h1 : validated.find? (fun v => v.id = f.id ∨ v.title = f.title) =
      none := by
    rw [List.find?_eq_none]
    intro v hvm
    have := hv v hvm
    simp [this.1, this.2]
  have h2 : rejected.find? (fun r => r.id = f.id) = none := by
    rw [List.find?_eq_none]
    intro r hrm
    simp [hr r hrm]
  have happ := applySynthesis_of_unmentioned h1 h2
  refine ⟨happ, ?_⟩
  unfold synthesizeStatuses
  exact happ ▸ List.mem_map_of_mem _ hf

/-- Concrete witness for C9: a finding mentioned by neither set survives
synthesis unchanged. -/
theorem synthesis_frame_witness :
    applySynthesis [cexSynthRef] [⟨"Z", "r"⟩] cexSynthF3 = cexSynthF3 ∧
    cexSynthF3 ∈ synthesizeStatuses [cexSynthRef] [⟨"Z", "r"⟩]
      [cexSynthF1, cexSynthF3] :=
  synthesis_frame [cexSynthRef] [⟨"Z", "r"⟩] [cexSynthF1, cexSynthF3]
    cexSynthF3 (by decide) (by decide) (by decide)

/-- An alive-filtered pass preserves the id column when its step does. -/
theorem arenaMapRound_ids
    (step : VulnerabilityFinding → Option DebateEntry × VulnerabilityFinding)
    (hstep : ∀ f, ((step f).2).id = f.id) (alive : String → Bool) :
    ∀ l, ((arenaMapRound step alive l).2).map (fun f => f.id) =
      l.map (fun f => f.id)
  | [] => rfl
  | f :: fs => by
      by_cases halive : alive f.id = true
      · simp [arenaMapRound, halive, hstep,
          arenaMapRound_ids step hstep alive fs]
      · simp [arenaMapRound, halive,
          arenaMapRound_ids step hstep alive fs]

/-- Every entry of an alive-filtered pass comes from an alive member of the
input list. -/
theorem arenaMapRound_entries_mem
    (step : VulnerabilityFinding → Option DebateEntry × VulnerabilityFinding)
    (alive : String → Bool) :
    ∀ l, ∀ e ∈ (arenaMapRound step alive l).1,
      ∃ f ∈ l, alive f.id = true ∧ (step f).1 = some e
  | [], e, he => by cases he
  | f :: fs, e, he => by
      by_cases halive : alive f.id = true
      · rcases hs : (step f).1 with _ | e'
        · rw [show (arenaMapRound step alive (f :: fs)).1 =
              (arenaMapRound step alive fs).1 by
            simp [arenaMapRound, halive, hs]] at he
          rcases arenaMapRound_entries_mem step alive fs e he with
            ⟨g, hg, hga, hgs⟩
          exact ⟨g, List.mem_cons_of_mem _ hg, hga, hgs⟩
        · rw [show (arenaMapRound step alive (f :: fs)).1 =
              e' :: (arenaMapRound step alive fs).1 by
            simp [arenaMapRound, halive, hs]] at he
          rcases List.mem_cons.mp he with rfl | hmem
          · exact ⟨f, List.mem_cons_self _ _, halive, hs⟩
          · rcases arenaMapRound_entries_mem step alive fs e hmem with
              ⟨g, hg, hga, hgs⟩
            exact ⟨g, List.mem_cons_of_mem _ hg, hga, hgs⟩
      · rw [show (arenaMapRound step alive (f :: fs)).1 =
            (arenaMapRound step alive fs).1 by
          simp [arenaMapRound, halive]] at he
        rcases arenaMapRound_entries_mem step alive fs e he with
          ⟨g, hg, hga, hgs⟩
        exact ⟨g, List.mem_cons_of_mem _ hg, hga, hgs⟩

/-- Every step of the arena preserves the target finding's id. -/
theorem arenaPresentStep_id (env : ArenaEnv) (spec : String → Bool)
    (f : VulnerabilityFinding) : ((arenaPresentStep env spec f).2).id = f.id := by
  unfold arenaPresentStep
  split <;> rfl

theorem arenaAttackStep_id (cfg : DebateConfig) (env : ArenaEnv)
    (f : VulnerabilityFinding) : ((arenaAttackStep cfg env f).2).id = f.id := rfl

theorem arenaDefendStep_id (cfg : DebateConfig) (env : ArenaEnv)
    (spec : String → Bool) (atk : List DebateEntry)
    (f : VulnerabilityFinding) :
    ((arenaDefendStep cfg env spec atk f).2).id = f.id := by
  unfold arenaDefendStep
  rcases hfa : atk.find? (fun e => e.targetFinding = some f.id) with _ | a
  · rw [hfa]
  · rcases hd : arenaDefenderName cfg env spec f with _ | sp <;> rw [hfa]

theorem arenaChallengeStep_id (cfg : DebateConfig) (env : ArenaEnv)
    (prior : List DebateEntry) (f : VulnerabilityFinding) :
    ((arenaChallengeStep cfg env prior f).2).id = f.id := rfl

theorem arenaFinalStep_id (env : ArenaEnv) (prior : List DebateEntry)
    (f : VulnerabilityFinding) :
    ((arenaFinalStep env prior f).2).id = f.id := rfl

/-- A defense entry targets the finding it was produced for. -/
theorem arenaDefendStep_target (cfg : DebateConfig) (env : ArenaEnv)
    (spec : String → Bool) (atk : List DebateEntry)
    (f : VulnerabilityFinding) (e : DebateEntry)
    (h : (arenaDefendStep cfg env spec atk f).1 = some e) :
    e.targetFinding = some f.id := by
  unfold arenaDefendStep at h
  rcases hfa : atk.find? (fun e => e.targetFinding = some f.id) with _ | a
  · rw [hfa] at h
    cases h
  · simp only [hfa] at h
    rcases hd : arenaDefenderName cfg env spec f with _ | sp
    · simp only [hd] at h
      cases h
    · simp only [hd] at h
      have he : arenaDefendEntry env sp a f = e := by simpa using h
      rw [← he]
      rfl

/-- A challenge entry targets the finding it was produced for. -/
theorem arenaChallengeStep_target (cfg : DebateConfig) (env : ArenaEnv)
    (prior : List DebateEntry) (f : VulnerabilityFinding) (e : DebateEntry)
    (h : (arenaChallengeStep cfg env prior f).1 = some e) :
    e.targetFinding = some f.id := by
  unfold arenaChallengeStep at h
  have he : arenaChallengeEntry cfg env prior f = e := by simpa using h
  rw [← he]
  rfl

/-- A final-round entry targets the finding it was produced for. -/
theorem arenaFinalStep_target (env : ArenaEnv) (prior : List DebateEntry)
    (f : VulnerabilityFinding) (e : DebateEntry)
    (h : (arenaFinalStep env prior f).1 = some e) :
    e.targetFinding = some f.id := by
  unfold arenaFinalStep at h
  have he : arenaFinalEntry env prior f = e := by simpa using h
  rw [← he]
  rfl

/-- `setRejectedFirst` preserves the id column. -/
theorem setRejectedFirst_ids (t : String) :
    ∀ l : List VulnerabilityFinding,
      (setRejectedFirst t l).map (fun f => f.id) = l.map (fun f => f.id)
  | [] => rfl
  | f :: fs => by
      by_cases h : f.id = t
      · simp [setRejectedFirst, h]
      · simp [setRejectedFirst, h, setRejectedFirst_ids t fs]

/-- Unfolding `processConcession1` at an entry with a `some` target. -/
theorem processConcession1_eq_some (e : DebateEntry)
    (st : List VulnerabilityFinding × (String → Bool)) (s : String)
    (he : e.targetFinding = some s) :
    processConcession1 e st =
      if e.action = DebateAction.concede ∧ s ≠ "" then
        (setRejectedFirst s st.1, fun x => if x = s then false else st.2 x)
      else st := by
  unfold processConcession1
  rw [he]

/-- Unfolding `processConcession1` at an entry without a target. -/
theorem processConcession1_eq_none (e : DebateEntry)
    (st : List VulnerabilityFinding × (String → Bool))
    (he : e.targetFinding = none) :
    processConcession1 e st = st := by
  unfold processConcession1
  rw [he]

/-- Processing one entry never revives a dead id. -/
theorem processConcession1_mono (t : String) (e : DebateEntry)
    (st : List VulnerabilityFinding × (String → Bool))
    (h : st.2 t = false) : (processConcession1 e st).2 t = false := by
  rcases he : e.targetFinding with _ | s
  · rw [processConcession1_eq_none e st he]
    exact h
  · rw [processConcession1_eq_some e st s he]
    by_cases hc : e.action = DebateAction.concede ∧ s ≠ ""
    · rw [if_pos hc]
      by_cases hts : t = s <;> simp [hts, h]
    · rw [if_neg hc]
      exact h

/-- Once an id is dead in the status map, concession processing keeps it
dead. -/
theorem processConcessions_mono (t : String) :
    ∀ (entries : List DebateEntry)
      (st : List VulnerabilityFinding × (String → Bool)),
      st.2 t = false → (processConcessions entries st).2 t = false
  | [], _, h => h
  | e :: es, st, h =>
      processConcessions_mono t es (processConcession1 e st)
        (processConcession1_mono t e st h)

/-- A `concede` entry with a truthy target forces that id dead in the
status map. -/
theorem processConcessions_sets (t : String) (ht : t ≠ "") :
    ∀ (entries : List DebateEntry)
      (st : List VulnerabilityFinding × (String → Bool)),
      (∃ e ∈ entries, e.action = DebateAction.concede ∧
        e.targetFinding = some t) →
      (processConcessions entries st).2 t = false
  | [], _, h => by rcases h with ⟨e, he, _⟩; cases he
  | e :: es, st, h => by
      rcases h with ⟨e', he', hact, htf⟩
      rcases List.mem_cons.mp he' with rfl | hmem
      · unfold processConcessions
        apply processConcessions_mono
        rw [processConcession1_eq_some e' st t htf, if_pos ⟨hact, ht⟩]
        simp
      · exact processConcessions_sets t ht es (processConcession1 e st)
          ⟨e', hmem, hact, htf⟩

/-- Processing one entry preserves the id column. -/
theorem processConcession1_ids (e : DebateEntry)
    (st : List VulnerabilityFinding × (String → Bool)) :
    ((processConcession1 e st).1).map (fun f => f.id) =
      (st.1).map (fun f => f.id) := by
  rcases he : e.targetFinding with _ | s
  · rw [processConcession1_eq_none e st he]
  · rw [processConcession1_eq_some e st s he]
    by_cases hc : e.action = DebateAction.concede ∧ s ≠ ""
    · rw [if_pos hc]
      exact setRejectedFirst_ids s st.1
    · rw [if_neg hc]

/-- Concession processing preserves the id column of the findings. -/
theorem processConcessions_ids :
    ∀ (entries : List DebateEntry)
      (st : List VulnerabilityFinding × (String → Bool)),
      ((processConcessions entries st).1).map (fun f => f.id) =
        (st.1).map (fun f => f.id)
  | [], _ => rfl
  | e :: es, st => by
      unfold processConcessions
      rw [processConcessions_ids es (processConcession1 e st)]
      exact processConcession1_ids e st

/-- The `findings` component of the arena result, unfolded. -/
theorem arenaDebate_findings (cfg : DebateConfig) (env : ArenaEnv)
    (spec : String → Bool) (findings0 : List VulnerabilityFinding) :
    (arenaDebate cfg env spec findings0).findings =
      (arenaS5 cfg env spec findings0).2.map (fun f =>
        if (arenaConc cfg env spec findings0).2 f.id then
          { f with status := FindingStatus.validated }
        else { f with status := FindingStatus.rejected }) := rfl

/-- The `rounds` component of the arena result, unfolded. -/
theorem arenaDebate_rounds (cfg : DebateConfig) (env : ArenaEnv)
    (spec : String → Bool) (findings0 : List VulnerabilityFinding) :
    (arenaDebate cfg env spec findings0).rounds =
      [⟨1, DebateRoundType.PRESENTATION, (arenaS1 env spec findings0).1,
          RoundOutcome.CONTINUES⟩,
        ⟨2, DebateRoundType.ATTACK, (arenaS2 cfg env spec findings0).1,
          RoundOutcome.CONTINUES⟩,
        ⟨3, DebateRoundType.DEFENSE, (arenaS3 cfg env spec findings0).1,
          RoundOutcome.CONTINUES⟩,
        ⟨4, DebateRoundType.DEVILS_ADVOCATE,
          (arenaS4 cfg env spec findings0).1, RoundOutcome.CONTINUES⟩] ++
        (if arenaHasSurvivor cfg env spec findings0 ∧ 4 < cfg.maxRounds then
          [⟨5, DebateRoundType.FINAL, (arenaS5 cfg env spec findings0).1,
            RoundOutcome.CONSENSUS⟩]
        else []) := rfl

/-- Round 1 preserves the id column. -/
theorem arenaS1_ids (env : ArenaEnv)
    (spec : String → Bool) (findings0 : List VulnerabilityFinding) :
    ((arenaS1 env spec findings0).2).map (fun f => f.id) =
      findings0.map (fun f => f.id) := by
  have h0 : (sessionFindingsOf findings0).map (fun f => f.id) =
      findings0.map (fun f => f.id) := by
    unfold sessionFindingsOf
    induction findings0 with
    | nil => rfl
    | cons f fs ih => simp only [List.map_cons, ih]
  unfold arenaS1
  rw [arenaMapRound_ids _ (arenaPresentStep_id env spec) _ _, h0]

/-- Round 2 preserves the id column. -/
theorem arenaS2_ids (cfg : DebateConfig) (env : ArenaEnv)
    (spec : String → Bool) (findings0 : List VulnerabilityFinding) :
    ((arenaS2 cfg env spec findings0).2).map (fun f => f.id) =
      findings0.map (fun f => f.id) := by
  unfold arenaS2
  rw [arenaMapRound_ids _ (arenaAttackStep_id cfg env) _ _,
    arenaS1_ids env spec findings0]

/-- Round 3 preserves the id column. -/
theorem arenaS3_ids (cfg : DebateConfig) (env : ArenaEnv)
    (spec : String → Bool) (findings0 : List VulnerabilityFinding) :
    ((arenaS3 cfg env spec findings0).2).map (fun f => f.id) =
      findings0.map (fun f => f.id) := by
  unfold arenaS3
  rw [arenaMapRound_ids _
    (arenaDefendStep_id cfg env spec (arenaS2 cfg env spec findings0).1) _ _,
    arenaS2_ids cfg env spec findings0]

/-- Concession processing preserves the id column. -/
theorem arenaConc_ids (cfg : DebateConfig) (env : ArenaEnv)
    (spec : String → Bool) (findings0 : List VulnerabilityFinding) :
    ((arenaConc cfg env spec findings0).1).map (fun f => f.id) =
      findings0.map (fun f => f.id) := by
  unfold arenaConc
  rw [processConcessions_ids]
  exact arenaS3_ids cfg env spec findings0

/-- Round 4 preserves the id column. -/
theorem arenaS4_ids (cfg : DebateConfig) (env : ArenaEnv)
    (spec : String → Bool) (findings0 : List VulnerabilityFinding) :
    ((arenaS4 cfg env spec findings0).2).map (fun f => f.id) =
      findings0.map (fun f => f.id) := by
  unfold arenaS4
  rw [arenaMapRound_ids _ (arenaChallengeStep_id cfg env _) _ _,
    arenaConc_ids cfg env spec findings0]

/-- The id column survives the whole arena pipeline. -/
theorem arenaS5_ids (cfg : DebateConfig) (env : ArenaEnv)
    (spec : String → Bool) (findings0 : List VulnerabilityFinding) :
    ((arenaS5 cfg env spec findings0).2).map (fun f => f.id) =
      findings0.map (fun f => f.id) := by
  unfold arenaS5
  split
  · rw [arenaMapRound_ids _ (arenaFinalStep_id env _) _ _,
      arenaS4_ids cfg env spec findings0]
  · exact arenaS4_ids cfg env spec findings0

/-- Every round-5 entry comes from a finding still alive after
concessions. -/
theorem arenaS5_entries_src (cfg : DebateConfig) (env : ArenaEnv)
    (spec : String → Bool) (findings0 : List VulnerabilityFinding) :
    ∀ e ∈ (arenaS5 cfg env spec findings0).1,
      ∃ f : VulnerabilityFinding,
        (arenaConc cfg env spec findings0).2 f.id = true ∧
        e.targetFinding = some f.id := by
  intro e he
  unfold arenaS5 at he
  by_cases hc : arenaHasSurvivor cfg env spec findings0 = true ∧
      4 < cfg.maxRounds
  · rw [if_pos hc] at he
    rcases arenaMapRound_entries_mem _ _ _ e he with ⟨f, _, hal, hstep⟩
    exact ⟨f, hal, arenaFinalStep_target env _ f e hstep⟩
  · rw [if_neg hc] at he
    cases he

/-- C4 (concession finality): if the arena's defense round contains a
`concede` entry targeting a (nonempty) id `t`, then the defense round is
part of the session, the post-debate finding with id `t` has status
`rejected`, and no round after the defense round (devil's-advocate
challenge or final round) contains any entry targeting `t` at all — in
particular no `attack`, `defend` or `challenge` entry. -/
theorem concession_finality (cfg : DebateConfig) (env : ArenaEnv)
    (spec : String → Bool) (findings0 : List VulnerabilityFinding)
    (t : String) (ht : t ≠ "")
    (hconc : ∃ e ∈ (arenaS3 cfg env spec findings0).1,
      e.action = DebateAction.concede ∧ e.targetFinding = some t) :
    ((⟨3, DebateRoundType.DEFENSE, (arenaS3 cfg env spec findings0).1,
        RoundOutcome.CONTINUES⟩ : DebateRound) ∈
      (arenaDebate cfg env spec findings0).rounds) ∧
    (∃ f' ∈ (arenaDebate cfg env spec findings0).findings,
      f'.id = t ∧ f'.status = FindingStatus.rejected) ∧
    (∀ r ∈ (arenaDebate cfg env spec findings0).rounds, 4 ≤ r.roundNumber →
      ∀ e ∈ r.entries, e.targetFinding ≠ some t) := by
  have halive : (arenaConc cfg env spec findings0).2 t = false := by
    unfold arenaConc
    exact processConcessions_sets t ht _ _ hconc
  have htid : t ∈ findings0.map (fun f => f.id) := by
    rcases hconc with ⟨e, he, hact, htf⟩
    rcases arenaMapRound_entries_mem
      (arenaDefendStep cfg env spec (arenaS2 cfg env spec findings0).1)
      (arenaAlive0 findings0) ((arenaS2 cfg env spec findings0).2) e he with
      ⟨f, hfmem, _, hfstep⟩
    have htg := arenaDefendStep_target cfg env spec _ f e hfstep
    have hteq : t = f.id := by
      rw [htf] at htg
      exact Option.some.inj htg
    rw [hteq, ← arenaS2_ids cfg env spec findings0]
    exact List.mem_map_of_mem _ hfmem
  refine ⟨?_, ?_, ?_⟩
  · rw [arenaDebate_rounds]
    exact List.mem_append_left _
      (List.mem_cons_of_mem _ (List.mem_cons_of_mem _
        (List.mem_cons_self _ _)))
  · have : t ∈ ((arenaS5 cfg env spec findings0).2).map (fun f => f.id) := by
      rw [arenaS5_ids cfg env spec findings0]
      exact htid
    rcases List.mem_map.mp this with ⟨f', hf'mem, hf'id⟩
    refine ⟨{ f' with status := FindingStatus.rejected }, ?_, hf'id, rfl⟩
    rw [arenaDebate_findings]
    refine List.mem_map.mpr ⟨f', hf'mem, ?_⟩
    have hcond : (arenaConc cfg env spec findings0).2 f'.id = false := by
      rw [hf'id]
      exact halive
    simp [hcond]
  · intro r hr h4 e he heq
    rw [arenaDebate_rounds] at hr
    rcases List.mem_append.mp hr with hr1 | hr2
    · rcases List.mem_cons.mp hr1 with rfl | hr1
      · simp at h4
      · rcases List.mem_cons.mp hr1 with rfl | hr1
        · simp at h4
        · rcases List.mem_cons.mp hr1 with rfl | hr1
          · simp at h4
          · rcases List.mem_cons.mp hr1 with rfl | hr1
            · rcases arenaMapRound_entries_mem
                (arenaChallengeStep cfg env
                  ((arenaS1 env spec findings0).1 ++
                    (arenaS2 cfg env spec findings0).1 ++
                    (arenaS3 cfg env spec findings0).1))
                ((arenaConc cfg env spec findings0).2)
                ((arenaConc cfg env spec findings0).1) e he with
                ⟨f, _, hal, hstep⟩
              have htg := arenaChallengeStep_target cfg env _ f e hstep
              rw [heq] at htg
              have : t = f.id := Option.some.inj htg
              rw [← this] at hal
              rw [halive] at hal
              cases hal
            · cases hr1
    · by_cases hc : arenaHasSurvivor cfg env spec findings0 = true ∧
          4 < cfg.maxRounds
      · rw [if_pos hc] at hr2
        rcases List.mem_cons.mp hr2 with rfl | hr2
        · rcases arenaS5_entries_src cfg env spec findings0 e he with
            ⟨f, hal, htg⟩
          rw [heq] at htg
          have : t = f.id := Option.some.inj htg
          rw [← this] at hal
          rw [halive] at hal
          cases hal
        · cases hr2
      · rw [if_neg hc] at hr2
        cases hr2

/-- Concrete witness for C4: with a defender that concedes, the lone
finding is rejected after the debate. -/
theorem concession_finality_witness :
    (("f1" : String) ≠ "" ∧
      ∃ e ∈ (arenaS3 {} cexArenaEnv (fun _ => true) [cexFinding]).1,
        e.action = DebateAction.concede ∧ e.targetFinding = some "f1") ∧
    (∃ f' ∈ (arenaDebate {} cexArenaEnv (fun _ => true) [cexFinding]).findings,
      f'.id = "f1" ∧ f'.status = FindingStatus.rejected) :=
  ⟨⟨by decide, by decide⟩,
    (concession_finality {} cexArenaEnv (fun _ => true) [cexFinding] "f1"
      (by decide) (by decide)).2.1⟩

/-- C6: counterexample. On the response `noise [1, 2] more [3] end` there
is no fenced block and no brace; the first balanced bracket region
`[1, 2]` parses, so the extraction the spec describes succeeds — but the
code's greedy `\[[\s\S]*\]` region runs from the first `[` to the last
`]` (`[1, 2] more [3]`), which does not parse, so
`BaseAgent.analyzeStructured` raises an (uncaught-`JSON.parse`) syntax
error. The code also never extracts a *balanced* region, and tries the
brace region before the bracket region regardless of which comes first. -/
theorem structured_extraction_cex :
    analyzeStructured cexStructuredResponse =
      Except.error "SyntaxError: Unexpected token in JSON" ∧
    ∃ d, analyzeStructuredSpec cexStructuredResponse = Except.ok d :=
  ⟨rfl, _, rfl⟩

/-- C6 (amended): `analyzeStructured` parses the trimmed candidate (first
fenced capture, else the whole response); on failure it retries on the
greedy first-brace-to-last-brace region of the candidate if one exists,
else on the greedy first-bracket-to-last-bracket region; it returns data
exactly when one of these three parses succeeds, and raises the custom
parse error exactly when the first parse fails and neither greedy region
exists. -/
theorem structured_extraction_amended (response : String) :
    ((∃ d, analyzeStructured response = Except.ok d) ↔
      ((jsonParseChars (trimChars (structuredCandidate response))).isSome = true ∨
       (∃ m, greedyRegion lbrace rbrace (structuredCandidate response) = some m ∧
         (jsonParseChars m).isSome = true) ∨
       (greedyRegion lbrace rbrace (structuredCandidate response) = none ∧
        ∃ m, greedyRegion lbrack rbrack (structuredCandidate response) = some m ∧
          (jsonParseChars m).isSome = true))) ∧
    ((analyzeStructured response =
        Except.error "Failed to parse JSON from response") ↔
      (jsonParseChars (trimChars (structuredCandidate response)) = none ∧
       greedyRegion lbrace rbrace (structuredCandidate response) = none ∧
       greedyRegion lbrack rbrack (structuredCandidate response) = none)) := by
  rcases h1 : jsonParseChars (trimChars (structuredCandidate response)) with _ | d1
  · rcases h2 : greedyRegion lbrace rbrace (structuredCandidate response) with _ | m1
    · rcases h3 : greedyRegion lbrack rbrack (structuredCandidate response) with _ | m2
      · simp [analyzeStructured, h1, h2, h3]
      · rcases h4 : jsonParseChars m2 with _ | d2
        · simp [analyzeStructured, h1, h2, h3, h4]
        · simp [analyzeStructured, h1, h2, h3, h4]
    · rcases h4 : jsonParseChars m1 with _ | d2
      · simp [analyzeStructured, h1, h2, h4]
      · simp [analyzeStructured, h1, h2, h4]
  · simp [analyzeStructured, h1]

/-- C7: when the spawner's structured response for some contract fails to
parse, spawnExperts does not propagate the failure: that contract gets the
fixed default analysis, whose three experts — each of them of the
generic-defect type `vulnerability`, mapped to the `vulnerability-specialist`
role — are all registered into the pipeline's spawned-expert list. -/
theorem spawn_experts_fallback (contracts : List String)
    (oracle : String → Except String SpawnResponse) (c : String)
    (hc : c ∈ contracts) (e : String) (he : oracle c = Except.error e) :
    analysisOfResponse (oracle c) = defaultExpertAnalysis ∧
    defaultExpertAnalysis.expertsToSpawn.length = 3 ∧
    (∀ d ∈ defaultExpertAnalysis.expertsToSpawn,
      d ∈ spawnExperts contracts oracle ∧
      d.type = "vulnerability" ∧ expertRole d.type = "vulnerability-specialist") := by
  refine ⟨by rw [he, analysisOfResponse], rfl, ?_⟩
  intro d hd
  refine ⟨?_, ?_, ?_⟩
  · exact List.mem_flatten.mpr
      ⟨(analysisOfResponse (oracle c)).expertsToSpawn,
        List.mem_map_of_mem _ hc, by rw [he, analysisOfResponse]; exact hd⟩
  · fin_cases hd <;> rfl
  · fin_cases hd <;> rfl

/-- C7 witness: one contract whose spawner response is a parse error. -/
theorem spawn_experts_fallback_witness :
    "c1" ∈ ["c1"] ∧
    (fun _ : String => (Except.error "SyntaxError" : Except String SpawnResponse)) "c1"
      = Except.error "SyntaxError" ∧
    (analysisOfResponse
        ((fun _ : String => (Except.error "SyntaxError" : Except String SpawnResponse)) "c1")
      = defaultExpertAnalysis ∧
     defaultExpertAnalysis.expertsToSpawn.length = 3 ∧
     (∀ d ∈ defaultExpertAnalysis.expertsToSpawn,
       d ∈ spawnExperts ["c1"]
          (fun _ : String => (Except.error "SyntaxError" : Except String SpawnResponse)) ∧
       d.type = "vulnerability" ∧ expertRole d.type = "vulnerability-specialist")) :=
  ⟨by decide, rfl,
    spawn_experts_fallback ["c1"]
      (fun _ : String => (Except.error "SyntaxError" : Except String SpawnResponse))
      "c1" (by decide) "SyntaxError" rfl⟩

/-- C8: if every analysis call of one spawned expert throws, each of its
(expert, contract) pairs contributes zero findings and its task returns
`[]`, while every finding contributed by any spawned expert (in
particular each sibling) still reaches the stage's final finding list. -/
theorem parallel_analysis_isolation (env : AnalysisEnv)
    (bad : ExpertDefinition) (_hbad : bad ∈ env.experts)
    (hfail : ∀ contract ∈ env.contracts,
      ∃ e, env.analyzeResp bad.name contract = Except.error e) :
    (∀ contract ∈ env.contracts,
      contractContribution env bad.name contract = []) ∧
    expertContribution env bad = [] ∧
    (∀ ex ∈ env.experts, ∀ f ∈ expertContribution env ex,
      f ∈ parallelAnalysis env) := by
  have hpair : ∀ contract ∈ env.contracts,
      contractContribution env bad.name contract = [] := by
    intro c hc
    rcases hfail c hc with ⟨e, he⟩
    simp [contractContribution, he]
  refine ⟨hpair, ?_, ?_⟩
  · unfold expertContribution
    by_cases hr : env.registered bad.name
    · rw [if_pos hr]
      rw [List.flatten_eq_nil_iff]
      intro l hl
      rcases List.mem_map.mp hl with ⟨c, hc, rfl⟩
      exact hpair c hc
    · rw [if_neg hr]
  · intro ex hex f hf
    exact List.mem_flatten.mpr ⟨_, List.mem_map_of_mem _ hex, hf⟩

/-- C8 witness: the five-expert batch with one all-throwing expert. -/
theorem parallel_analysis_isolation_witness :
    cexBadExpert ∈ cexAnalysisEnv.experts ∧
    (∀ contract ∈ cexAnalysisEnv.contracts,
      ∃ e, cexAnalysisEnv.analyzeResp cexBadExpert.name contract
        = Except.error e) ∧
    ((∀ contract ∈ cexAnalysisEnv.contracts,
        contractContribution cexAnalysisEnv cexBadExpert.name contract = []) ∧
     expertContribution cexAnalysisEnv cexBadExpert = [] ∧
     (∀ ex ∈ cexAnalysisEnv.experts,
        ∀ f ∈ expertContribution cexAnalysisEnv ex,
          f ∈ parallelAnalysis cexAnalysisEnv)) :=
  ⟨by decide, fun c hc => ⟨"boom", by fin_cases hc; rfl⟩,
    parallel_analysis_isolation cexAnalysisEnv cexBadExpert (by decide)
      (fun c hc => ⟨"boom", by fin_cases hc; rfl⟩)⟩

/-- Every batch of the BATCH_SIZE-5 loop has at most 5 findings. -/
theorem batchSizesAux_le_five (fuel : ℕ) :
    ∀ n b, b ∈ batchSizesAux fuel n → b ≤ 5 := by
  induction fuel with
  | zero => intro n b hb; simp [batchSizesAux] at hb
  | succ fuel ih =>
      intro n b hb
      by_cases hn : n = 0
      · simp [batchSizesAux, hn] at hb
      · rw [batchSizesAux, if_neg hn] at hb
        rcases List.mem_cons.mp hb with h | h
        · subst h; exact min_le_left _ _
        · exact ih _ _ h

/-- With at least five findings, the first batch has exactly five. -/
theorem batchSizes_head (n : ℕ) (h5 : 5 ≤ n) :
    ∃ t, batchSizes n = 5 :: t := by
  rcases n with _ | m
  · omega
  · refine ⟨batchSizesAux m (m + 1 - 5), ?_⟩
    rw [batchSizes, batchSizesAux, if_neg (by omega)]
    have : min 5 (m + 1) = 5 := by omega
    rw [this]

/-- C10: counterexample. A run with limit `K = 2` and five debated
findings: the analysis stage stays at 2 in-flight calls, but a debate
round's unlimited `Promise.all` batch puts 5 oracle calls in flight at
once, exceeding the configured limit. -/
theorem concurrency_limit_cex :
    2 < peakConcurrency 2 (huntCallGroups 4 5 2 1) ∧
    groupPeak 2 (⟨4, true⟩ : CallGroup) ≤ 2 := by
  constructor
  · show 2 < peakConcurrency 2 (huntCallGroups 4 5 2 1)
    decide
  · decide

/-- C10 (amended): every pLimit-wrapped group (analysis, forge,
verification) keeps at most `K` calls in flight, and no group whatsoever
exceeds `max K 5`; but the debate rounds are not behind the limiter — as
soon as at least five findings are debated and `K < 5`, some debate batch
has more than `K` calls in flight. -/
theorem concurrency_limit_amended (K numExperts nDebate numForge numVerify : ℕ) :
    (∀ g ∈ huntCallGroups numExperts nDebate numForge numVerify,
      g.limited = true → groupPeak K g ≤ K) ∧
    (∀ g ∈ huntCallGroups numExperts nDebate numForge numVerify,
      groupPeak K g ≤ max K 5) ∧
    (5 ≤ nDebate → K < 5 →
      ∃ g ∈ huntCallGroups numExperts nDebate numForge numVerify,
        g.limited = false ∧ K < groupPeak K g) := by
  refine ⟨?_, ?_, ?_⟩
  · intro g _ hl
    simp only [groupPeak, hl, if_pos]
    exact min_le_left _ _
  · intro g hg
    by_cases hl : g.limited
    · exact le_trans (by simp only [groupPeak, hl, if_pos]; exact min_le_left _ _)
        (le_max_left _ _)
    · have hs : g.size ≤ 5 := by
        rw [huntCallGroups] at hg
        rcases List.mem_cons.mp hg with heq | hg1
        · rw [heq] at hl; simp at hl
        · rcases List.mem_append.mp hg1 with hg2 | hv
          · rcases List.mem_append.mp hg2 with hg3 | hforge
            · have hb : ∃ b ∈ batchSizes nDebate,
                  g = (⟨b, false⟩ : CallGroup) := by
                rcases List.mem_append.mp hg3 with hg4 | hd
                · rcases List.mem_append.mp hg4 with hg5 | hd
                  · rcases List.mem_append.mp hg5 with hd | hd <;>
                      · rcases List.mem_map.mp hd with ⟨b, hb, heq⟩
                        exact ⟨b, hb, heq.symm⟩
                  · rcases List.mem_map.mp hd with ⟨b, hb, heq⟩
                    exact ⟨b, hb, heq.symm⟩
                · rcases List.mem_map.mp hd with ⟨b, hb, heq⟩
                  exact ⟨b, hb, heq.symm⟩
              rcases hb with ⟨b, hb, rfl⟩
              exact batchSizesAux_le_five _ _ _ hb
            · rcases List.mem_map.mp hforge with ⟨m, _, heq⟩
              rw [← heq] at hl; simp at hl
          · rcases List.mem_map.mp hv with ⟨m, _, heq⟩
            rw [← heq] at hl; simp at hl
      calc groupPeak K g = g.size := by
            simp only [groupPeak, Bool.not_eq_true] at hl ⊢; rw [hl]; rfl
        _ ≤ 5 := hs
        _ ≤ max K 5 := le_max_right _ _
  · intro hn hK
    rcases batchSizes_head nDebate hn with ⟨t, ht⟩
    have h5mem : (5 : ℕ) ∈ batchSizes nDebate := by
      rw [ht]; exact List.mem_cons_self _ _
    have hgr : (⟨5, false⟩ : CallGroup) ∈ debateRoundGroups nDebate :=
      List.mem_map_of_mem _ h5mem
    refine ⟨⟨5, false⟩, ?_, rfl, ?_⟩
    · rw [huntCallGroups]
      exact List.mem_cons_of_mem _ (List.mem_append_left _
        (List.mem_append_left _ (List.mem_append_left _
          (List.mem_append_left _ (List.mem_append_left _ hgr)))))
    · simpa [groupPeak] using hK

/-- C10 amended witness: limit 2, seven debated findings, four experts,
two forged findings, one verified exploit. -/
theorem concurrency_limit_amended_witness :
    (∀ g ∈ huntCallGroups 4 7 2 1, g.limited = true → groupPeak 2 g ≤ 2) ∧
    (∀ g ∈ huntCallGroups 4 7 2 1, groupPeak 2 g ≤ max 2 5) ∧
    (5 ≤ 7 → 2 < 5 →
      ∃ g ∈ huntCallGroups 4 7 2 1, g.limited = false ∧ 2 < groupPeak 2 g) :=
  concurrency_limit_amended 2 4 7 2 1

end Swarm
